import Mathlib

/-! A verification development of jhd3197/boilerplates.

A shallow embedding of the Go sources of the boilerplate manager

* `go-boilerplate-manager/config/config.go`: the catalog model and the
  configuration mutations,
* `_archived_go-cli/pkg/templates/templates.go`: registry fetching, custom
  template conversion and local template discovery,
* `go-boilerplate-manager/cmd/import.go`: the import command,
* `go-boilerplate-manager/cmd/create.go`: the template materializer,

followed by the theorems settled about them.

Conventions of the embedding.

* A Go slice is a `List`; a nil slice and an empty slice are both `[]`.
* A Go `*string` is an `Option String` (`none` for nil).
* A Go method with a pointer receiver that returns `error` is a function
  from the receiver to the pair of the receiver afterwards and the error
  (`none` for a nil error, `some msg` for `fmt.Errorf` with message `msg`).
* A Go `map[string]string` is an association list. The keys of a map are
  distinct, so a search for a key finds at most one binding, whatever the
  order in which `range` visits the map; on a list the first binding is taken.
-/

set_option autoImplicit false

namespace Boilerplates

/-! ## Catalog model (`config/config.go`) -/

/-- Go `error`: nil or an error carrying its message. -/
abbrev GoError := Option String

/-- Struct `Registry` (config.go, lines 11-17). -/
structure Registry where
  ID : String
  Name : String
  URL : String
  Enabled : Bool
  RequiresAuth : Bool
deriving DecidableEq, Repr

/-- Struct `CustomTemplate` (config.go, lines 20-31). -/
structure CustomTemplate where
  ID : String
  Name : String
  Description : String
  Repo : String
  Path : String
  Branch : String
  Commit : Option String
  Private : Bool
  Category : String
  Tags : List String
deriving DecidableEq, Repr

/-- Struct `Config` (config.go, lines 34-41). -/
structure Config where
  GithubToken : String
  Registries : List Registry
  CustomTemplates : List CustomTemplate
  PrivateRepos : List String
  PublicRepoURL : String
deriving DecidableEq, Repr

/-- Struct `Prompt` (config.go, lines 44-48). -/
structure Prompt where
  Label : String
  Default : String
  Format : String
deriving DecidableEq, Repr

/-- Struct `ReplaceRule` (config.go, lines 54-57); `Values` is the
`ReplaceValue` map. -/
structure ReplaceRule where
  Glob : String
  Values : List (String × String)
deriving DecidableEq, Repr

/-- Struct `Template` (config.go, lines 60-74). -/
structure Template where
  ID : String
  Name : String
  Description : String
  Category : String
  Prompts : List (String × Prompt)
  Rename : List (String × String)
  Replace : List ReplaceRule
  Repo : String
  Path : String
  Branch : String
  Commit : Option String
  Tags : List String
deriving DecidableEq, Repr

/-- Struct `RegistryTemplate` (config.go, lines 86-96). -/
structure RegistryTemplate where
  ID : String
  Name : String
  Description : String
  Category : String
  Repo : Option String
  Path : String
  Branch : String
  Commit : Option String
  Tags : List String
deriving DecidableEq, Repr

/-- Struct `TemplateRegistry` (config.go, lines 77-83). -/
structure TemplateRegistry where
  Version : String
  Name : String
  Description : String
  DefaultRepo : String
  Templates : List RegistryTemplate
deriving DecidableEq, Repr

/-! ## Configuration mutations (`config/config.go`, lines 196-249) -/

/-- The search loop `for i, x := range xs { if p x { ... return } }`: the
index of the first element at which the body's test succeeds, `none` when
the loop runs to its end. -/
def rangeFirst {α : Type} (p : α → Bool) : List α → Option Nat
  | [] => none
  | x :: xs => if p x then some 0 else (rangeFirst p xs).map (· + 1)

/-- The slice expression `append(xs[:i], xs[i+1:]...)`. -/
def spliceOut {α : Type} (xs : List α) (i : Nat) : List α :=
  xs.take i ++ xs.drop (i + 1)

/-- Method `(*Config).AddRegistry` (config.go, lines 197-205). -/
def AddRegistry (c : Config) (registry : Registry) : Config × GoError :=
  match rangeFirst (fun r => r.ID == registry.ID) c.Registries with
  | some _ => (c, some ("registry with ID '" ++ registry.ID ++ "' already exists"))
  | none => ({ c with Registries := c.Registries ++ [registry] }, none)

/-- Method `(*Config).RemoveRegistry` (config.go, lines 208-216). -/
def RemoveRegistry (c : Config) (id : String) : Config × GoError :=
  match rangeFirst (fun r => r.ID == id) c.Registries with
  | some i => ({ c with Registries := spliceOut c.Registries i }, none)
  | none => (c, some ("registry with ID '" ++ id ++ "' not found"))

/-- Method `(*Config).AddCustomTemplate` (config.go, lines 219-227). -/
def AddCustomTemplate (c : Config) (template : CustomTemplate) : Config × GoError :=
  match rangeFirst (fun t => t.ID == template.ID) c.CustomTemplates with
  | some _ => (c, some ("template with ID '" ++ template.ID ++ "' already exists"))
  | none => ({ c with CustomTemplates := c.CustomTemplates ++ [template] }, none)

/-- Method `(*Config).RemoveCustomTemplate` (config.go, lines 230-238). -/
def RemoveCustomTemplate (c : Config) (id : String) : Config × GoError :=
  match rangeFirst (fun t => t.ID == id) c.CustomTemplates with
  | some i => ({ c with CustomTemplates := spliceOut c.CustomTemplates i }, none)
  | none => (c, some ("template with ID '" ++ id ++ "' not found"))

/-- The assignment `xs[i].Commit = commit` on a slice of custom templates. -/
def assignCommit (xs : List CustomTemplate) (i : Nat) (commit : Option String) :
    List CustomTemplate :=
  match xs[i]? with
  | some t => xs.set i { t with Commit := commit }
  | none => xs

/-- Method `(*Config).SetTemplateCommit` (config.go, lines 241-249). -/
def SetTemplateCommit (c : Config) (id : String) (commit : Option String) :
    Config × GoError :=
  match rangeFirst (fun t => t.ID == id) c.CustomTemplates with
  | some i => ({ c with CustomTemplates := assignCommit c.CustomTemplates i commit }, none)
  | none => (c, some ("template with ID '" ++ id ++ "' not found"))

/-! ## Registry fetching (`pkg/templates/templates.go`, lines 15-89)

`FetchRegistry` performs an HTTP GET and decodes the body; both are outside
the program, so its outcome for a request is a parameter of the embedding.
Text written by `log.Printf` and `fmt.Printf` is not part of the embedding. -/

/-- The arguments of one call `FetchRegistry(url, token, requiresAuth)`. -/
structure FetchCall where
  url : String
  token : String
  requiresAuth : Bool
deriving DecidableEq, Repr

/-- The outcome of `FetchRegistry` for each request: the decoded registry
document or the error. The first argument is the number of requests made
before this one, so that two requests with the same arguments may have
different outcomes. -/
abbrev Fetcher := Nat → String → String → Bool → Except String TemplateRegistry

/-- The composite literal `config.Template{...}` built from a registry entry
in the loop body of `FetchAllRegistries` (templates.go, lines 67-83). -/
def registryTemplateToTemplate (registry : TemplateRegistry) (rt : RegistryTemplate) :
    Template :=
  let repo := match rt.Repo with
    | some r => r
    | none => registry.DefaultRepo
  { ID := rt.ID, Name := rt.Name, Description := rt.Description, Category := rt.Category,
    Prompts := [], Rename := [], Replace := [],
    Repo := repo, Path := rt.Path, Branch := rt.Branch, Commit := rt.Commit, Tags := rt.Tags }

/-- What a run of `FetchAllRegistries` yields: the two return values and the
calls of `FetchRegistry` it made, in order. -/
structure FetchAllResult where
  templates : List Template
  err : GoError
  calls : List FetchCall
deriving DecidableEq, Repr

/-- The outer loop of `FetchAllRegistries` (templates.go, lines 54-86) over the
registries still to visit, with `allTemplates` and the calls made so far. -/
def fetchAllLoop (FetchRegistry : Fetcher) (token : String) :
    List Registry → List Template → List FetchCall → List Template × List FetchCall
  | [], allTemplates, calls => (allTemplates, calls)
  | reg :: rest, allTemplates, calls =>
    if !reg.Enabled then
      fetchAllLoop FetchRegistry token rest allTemplates calls
    else
      let calls1 := calls ++ [{ url := reg.URL, token := token, requiresAuth := reg.RequiresAuth }]
      match FetchRegistry calls.length reg.URL token reg.RequiresAuth with
      | .error _ => fetchAllLoop FetchRegistry token rest allTemplates calls1
      | .ok registry =>
        fetchAllLoop FetchRegistry token rest
          (registry.Templates.foldl
            (fun acc rt => acc ++ [registryTemplateToTemplate registry rt]) allTemplates)
          calls1

/-- Function `FetchAllRegistries` (templates.go, lines 51-89). -/
def FetchAllRegistries (FetchRegistry : Fetcher) (cfg : Config) : FetchAllResult :=
  let r := fetchAllLoop FetchRegistry cfg.GithubToken cfg.Registries [] []
  { templates := r.1, err := none, calls := r.2 }

/-- Function `GetCustomTemplates` (templates.go, lines 92-111). -/
def GetCustomTemplates (cfg : Config) : List Template :=
  cfg.CustomTemplates.foldl
    (fun templates ct => templates ++
      [{ ID := ct.ID, Name := ct.Name, Description := ct.Description, Category := ct.Category,
         Prompts := [], Rename := [], Replace := [],
         Repo := ct.Repo, Path := ct.Path, Branch := ct.Branch, Commit := ct.Commit,
         Tags := ct.Tags }])
    []

/-! ## The import command (`cmd/import.go`) -/

/-- The composite literal `config.CustomTemplate{...}` built from a registry
entry in the import loop (import.go, lines 85-101). -/
def registryTemplateToCustom (registry : TemplateRegistry) (requiresAuth : Bool)
    (rt : RegistryTemplate) : CustomTemplate :=
  let repo := match rt.Repo with
    | some r => r
    | none => registry.DefaultRepo
  { ID := rt.ID, Name := rt.Name, Description := rt.Description, Repo := repo,
    Path := rt.Path, Branch := rt.Branch, Commit := rt.Commit, Category := rt.Category,
    Tags := rt.Tags, Private := requiresAuth }

/-- The selection of `templatesToImport` (import.go, lines 67-80); an error
stands for the `log.Fatalf` of line 78. -/
def selectTemplatesToImport (registry : TemplateRegistry) (templateID : String)
    (importAll : Bool) : Except String (List RegistryTemplate) :=
  if importAll then .ok registry.Templates
  else
    match registry.Templates.find? (fun tpl => tpl.ID == templateID) with
    | some tpl => .ok [tpl]
    | none => .error ("Template '" ++ templateID ++ "' not found in registry")

/-- The import loop (import.go, lines 83-109) over the entries still to
import, with the configuration and the counter `imported`. -/
def importLoop (registry : TemplateRegistry) (requiresAuth : Bool) :
    List RegistryTemplate → Config → Nat → Config × Nat
  | [], cfg, imported => (cfg, imported)
  | rt :: rest, cfg, imported =>
    match AddCustomTemplate cfg (registryTemplateToCustom registry requiresAuth rt) with
    | (cfg1, some _) => importLoop registry requiresAuth rest cfg1 imported
    | (cfg1, none) => importLoop registry requiresAuth rest cfg1 (imported + 1)

/-- How a run of the import command ends. -/
inductive ImportOutcome where
  /-- A call of `log.Fatalf`, with its message. -/
  | fatal (msg : String)
  /-- Neither `--all` nor `--template`: the entries are listed, nothing changes. -/
  | listed
  /-- The loop ran: the configuration afterwards, the number of imported
  entries, and whether `SaveConfig` was called. -/
  | done (cfg : Config) (imported : Nat) (saved : Bool)
deriving DecidableEq, Repr

/-- The `Run` function of `importCmd` (import.go, lines 31-117), from the
loaded configuration; `SaveConfig` is the outcome of persisting. -/
def importCmd (FetchRegistry : Fetcher) (SaveConfig : Config → GoError) (cfg : Config)
    (registryURL templateID : String) (importAll requiresAuth : Bool) : ImportOutcome :=
  match FetchRegistry 0 registryURL cfg.GithubToken requiresAuth with
  | .error err => .fatal ("Error fetching registry: " ++ err)
  | .ok registry =>
    if !importAll && templateID == "" then .listed
    else
      match selectTemplatesToImport registry templateID importAll with
      | .error msg => .fatal msg
      | .ok templatesToImport =>
        let r := importLoop registry requiresAuth templatesToImport cfg 0
        if r.2 > 0 then
          match SaveConfig r.1 with
          | some err => .fatal ("Error saving configuration: " ++ err)
          | none => .done r.1 r.2 true
        else .done r.1 r.2 false

/-! ## Paths (`path/filepath`, Unix)

The functions of the Go standard library that the walks use, on `/`-separated
paths: `Clean` by its documented rules, `Join` and `Dir` as defined from it. -/

/-- The components of a path: `strings.Split(path, "/")` on characters. -/
def filepath.split : List Char → List (List Char)
  | [] => [[]]
  | c :: cs =>
    if c = '/' then [] :: filepath.split cs
    else
      match filepath.split cs with
      | [] => [[c]]
      | x :: xs => (c :: x) :: xs

/-- One step of `Clean`: `out` holds the components kept so far, the last
one first. Empty components and `.` are dropped, `..` removes the component
before it, stays when nothing can be removed and the path is not rooted, and
is dropped at the root. -/
def filepath.cleanStep (rooted : Bool) (out : List (List Char)) (comp : List Char) :
    List (List Char) :=
  if comp = [] ∨ comp = ['.'] then out
  else if comp = ['.', '.'] then
    match out with
    | [] => if rooted then [] else [comp]
    | top :: rest => if top = ['.', '.'] then comp :: out else rest
  else comp :: out

/-- Function `filepath.Clean`. -/
def filepath.Clean (path : String) : String :=
  match path.data with
  | [] => "."
  | c :: cs =>
    let rooted : Bool := c = '/'
    let out := ((filepath.split (c :: cs)).foldl (filepath.cleanStep rooted) []).reverse
    let body := String.mk (List.intercalate ['/'] out)
    if rooted then "/" ++ body
    else if out = [] then "." else body

/-- Function `filepath.Join` at two elements. -/
def filepath.Join (a b : String) : String :=
  if a ≠ "" then filepath.Clean (a ++ "/" ++ b)
  else if b ≠ "" then filepath.Clean b
  else ""

/-- The prefix of a path up to and including its last separator. -/
def filepath.dirPrefix (path : List Char) : List Char :=
  (path.reverse.dropWhile (fun c => c ≠ '/')).reverse

/-- Function `filepath.Dir`. -/
def filepath.Dir (path : String) : String :=
  filepath.Clean (String.mk (filepath.dirPrefix path.data))

/-! ## Local template discovery (`pkg/templates/templates.go`, lines 139-172) -/

/-- A file tree as `filepath.WalkDir` and `filepath.Walk` see it. A directory
lists its entries in the order the walk visits them (lexical order of the
names); `readErr` is the error of reading the directory, if it fails. A
non-directory entry carries the outcome of `os.ReadFile` on it. -/
inductive FSNode where
  | file (name : String) (mode : Nat) (content : Except String String)
  | dir (name : String) (mode : Nat) (readErr : Option String) (entries : List FSNode)

/-- The result of `Name()` on an entry. -/
def FSNode.name : FSNode → String
  | .file name _ _ => name
  | .dir name _ _ _ => name

/-- The result of `IsDir()` on an entry. -/
def FSNode.isDir : FSNode → Bool
  | .file _ _ _ => false
  | .dir _ _ _ _ => true

mutual
/-- The walk `walkDir` of `filepath.WalkDir` at one entry, running the
callback of `DiscoverLocalTemplates` (templates.go, lines 142-166) with
`localTemplates` as accumulator; `decode` is `json.Unmarshal` into a
`config.Template`. An error aborts the walk. -/
def discoverWalk (decode : String → Except String Template) (path : String) :
    FSNode → List Template → Except String (List Template)
  | .file name _ content, localTemplates =>
    if name == "template.json" then
      match content with
      | .error _ => .ok localTemplates
      | .ok data =>
        match decode data with
        | .error _ => .ok localTemplates
        | .ok tpl => .ok (localTemplates ++ [{ tpl with Path := filepath.Dir path }])
    else .ok localTemplates
  | .dir _ _ readErr entries, localTemplates =>
    match readErr with
    | some err => .error err
    | none => discoverWalkList decode path entries localTemplates
/-- The loop of `walkDir` over the entries of the directory `path`. -/
def discoverWalkList (decode : String → Except String Template) (path : String) :
    List FSNode → List Template → Except String (List Template)
  | [], localTemplates => .ok localTemplates
  | d1 :: rest, localTemplates =>
    match discoverWalk decode (filepath.Join path d1.name) d1 localTemplates with
    | .error err => .error err
    | .ok localTemplates1 => discoverWalkList decode path rest localTemplates1
end

/-- Function `DiscoverLocalTemplates` (templates.go, lines 140-172); `root` is
the outcome of `os.Lstat(dir)` together with the tree found there. -/
def DiscoverLocalTemplates (decode : String → Except String Template)
    (root : Except String FSNode) (dir : String) : Except String (List Template) :=
  match root with
  | .error err =>
    .error ("failed to walk local templates directory " ++ dir ++ ": " ++ err)
  | .ok node =>
    match discoverWalk decode dir node [] with
    | .error err =>
      .error ("failed to walk local templates directory " ++ dir ++ ": " ++ err)
    | .ok localTemplates => .ok localTemplates

/-! ## Templates (`text/template`)

The materializer renders file contents and rename patterns with
`template.New(...).Parse` and `Execute` on a `map[string]string`. The
embedding covers the templates made of literal text and of actions holding
one operand, which is a field `.Name` or a bare identifier, with optional
blanks around it. Any other action (pipelines, variables, literals, control
structures, comments, trim markers, parentheses) is reported as `unmodelled`
and nothing is stated about it. -/

/-- A node of a parsed template. -/
inductive TplNode where
  /-- Literal text, copied to the output. -/
  | text (s : List Char)
  /-- The action of a field `.name`. -/
  | field (name : List Char)
deriving DecidableEq, Repr

/-- The outcome of `Parse`. -/
inductive ParseResult where
  | ok (nodes : List TplNode)
  /-- The parse error `function "name" not defined`: a bare identifier in an
  action is a function call, and `name` is no function of the template. -/
  | functionNotDefined (name : String)
  /-- The template is outside the part of the language that is embedded. -/
  | unmodelled
deriving DecidableEq, Repr

/-- The lexer's `isSpace`. -/
def tplIsSpace (c : Char) : Bool :=
  c = ' ' || c = '\t' || c = '\r' || c = '\n'

/-- The lexer's `isAlphaNumeric`, on ASCII. -/
def tplIsAlphaNumeric (c : Char) : Bool :=
  c = '_' || c.isAlpha || c.isDigit

/-- The words that are not plain identifiers: the keywords and constants of
the lexer and the predefined functions. -/
def tplReserved : List String :=
  ["block", "break", "continue", "define", "else", "end", "if", "range", "nil",
   "template", "with", "true", "false",
   "and", "call", "html", "index", "slice", "js", "len", "not", "or", "print",
   "printf", "println", "urlquery", "eq", "ge", "gt", "le", "lt", "ne"]

/-- The state of the scanner. -/
inductive LexState where
  /-- In literal text; the text read so far, last character first. -/
  | text (buf : List Char)
  /-- After the left delimiter, before the operand. -/
  | actionStart
  /-- In a field, after its dot; the name read so far, last character first. -/
  | field (buf : List Char)
  /-- In an identifier. -/
  | ident (buf : List Char)
  /-- After a field, before the right delimiter. -/
  | actionEnd (node : TplNode)
deriving DecidableEq, Repr

/-- The text node for a buffer; the lexer emits no empty text. -/
def flushText (buf : List Char) (nodes : List TplNode) : List TplNode :=
  if buf = [] then nodes else TplNode.text buf.reverse :: nodes

/-- What the parser does with a complete identifier. -/
def identResult (buf : List Char) : ParseResult :=
  let word := String.mk buf.reverse
  if word ∈ tplReserved then .unmodelled else .functionNotDefined word

/-- The scanner and parser: `nodes` holds the nodes read so far, the last one
first. -/
def parseFrom : LexState → List TplNode → List Char → ParseResult
  | .text buf, nodes, [] => .ok (flushText buf nodes).reverse
  | .text buf, nodes, '{' :: '{' :: rest => parseFrom .actionStart (flushText buf nodes) rest
  | .text buf, nodes, c :: rest => parseFrom (.text (c :: buf)) nodes rest
  | .actionStart, _, [] => .unmodelled
  | .actionStart, nodes, c :: rest =>
    if tplIsSpace c then parseFrom .actionStart nodes rest
    else if c = '.' then
      match rest with
      | d :: _ =>
        if tplIsAlphaNumeric d && !d.isDigit then parseFrom (.field []) nodes rest
        else .unmodelled
      | [] => .unmodelled
    else if tplIsAlphaNumeric c && !c.isDigit then parseFrom (.ident [c]) nodes rest
    else .unmodelled
  | .field _, _, [] => .unmodelled
  | .field buf, nodes, '}' :: '}' :: rest =>
    parseFrom (.text []) (TplNode.field buf.reverse :: nodes) rest
  | .field buf, nodes, c :: rest =>
    if tplIsAlphaNumeric c then parseFrom (.field (c :: buf)) nodes rest
    else if tplIsSpace c then parseFrom (.actionEnd (TplNode.field buf.reverse)) nodes rest
    else .unmodelled
  | .ident _, _, [] => .unmodelled
  | .ident buf, _, '}' :: '}' :: _ => identResult buf
  | .ident buf, nodes, c :: rest =>
    if tplIsAlphaNumeric c then parseFrom (.ident (c :: buf)) nodes rest
    else if tplIsSpace c then identResult buf
    else .unmodelled
  | .actionEnd _, _, [] => .unmodelled
  | .actionEnd node, nodes, '}' :: '}' :: rest => parseFrom (.text []) (node :: nodes) rest
  | .actionEnd node, nodes, c :: rest =>
    if tplIsSpace c then parseFrom (.actionEnd node) nodes rest
    else .unmodelled

/-- The call `template.New(name).Parse(text)`. -/
def templateParse (text : String) : ParseResult :=
  parseFrom (.text []) [] text.data

/-- The lookup of a field on a `map[string]string` (`MapIndex` in the
evaluation of a field): the entry at the key, or no value when the map has no
such key. -/
def mapIndex (m : List (String × String)) (key : String) : Option String :=
  match m.find? (fun kv => kv.1 == key) with
  | some kv => some kv.2
  | none => none

/-- The output of one node on a `map[string]string`: a field prints the entry
at its name, and `<no value>` when the map has no such key (no `missingkey`
option is set, so the lookup yields no value and execution goes on). -/
def execNode (data : List (String × String)) : TplNode → List Char
  | .text s => s
  | .field name =>
    match mapIndex data (String.mk name) with
    | some value => value.data
    | none => "<no value>".data

/-- The method `Execute` on a `map[string]string`: the output written to the
buffer. -/
def templateExecute (nodes : List TplNode) (data : List (String × String)) : String :=
  String.mk (nodes.foldl (fun out n => out ++ execNode data n) [])

/-! ## The destination file system (`os.MkdirAll`, `os.WriteFile`)

The destination is a table from cleaned paths to entries, the most recent
binding first. The working directory `.`, the root `/` and the paths made
of `..` only are directories that always exist. Permission and quota
failures are not part of the embedding: an operation fails only for the
shape of the tree. -/

/-- An entry of the destination. -/
inductive DestEntry where
  | dir (perm : Nat)
  | file (content : String) (perm : Nat)
deriving DecidableEq, Repr

/-- The destination file system. -/
abbrev DestFS := List (String × DestEntry)

/-- Whether a cleaned path is a directory that exists in every state. -/
def alwaysDir (p : String) : Bool :=
  p = "." || p = "/" || (filepath.split p.data).all (fun comp => comp = ['.', '.'])

/-- The outcome of `os.Stat` on a cleaned path: its entry, if it exists. -/
def DestFS.stat (fs : DestFS) (p : String) : Option DestEntry :=
  if alwaysDir p then some (.dir 0)
  else
    match fs.find? (fun kv => kv.1 == p) with
    | some kv => some kv.2
    | none => none

/-- The recursion of `os.MkdirAll` on a cleaned path: nothing to do at a
directory, an error at a file, and otherwise the parent first and then
`Mkdir`. The first argument bounds the depth of the recursion. -/
def mkdirAllFrom (perm : Nat) : Nat → String → DestFS → Except String DestFS
  | 0, p, _ => .error ("mkdir " ++ p ++ ": file name too long")
  | n + 1, p, fs =>
    match fs.stat p with
    | some (.dir _) => .ok fs
    | some (.file _ _) => .error ("mkdir " ++ p ++ ": not a directory")
    | none =>
      match mkdirAllFrom perm n (filepath.Dir p) fs with
      | .error err => .error err
      | .ok fs1 => .ok ((p, DestEntry.dir perm) :: fs1)

/-- Function `os.MkdirAll`. -/
def DestFS.MkdirAll (fs : DestFS) (path : String) (perm : Nat) : Except String DestFS :=
  if path = "" then .error "mkdir : no such file or directory"
  else mkdirAllFrom perm (path.length + 1) (filepath.Clean path) fs

/-- Function `os.WriteFile`: the parent must be a directory and the path
must not be one; an existing file is truncated and keeps its permissions. -/
def DestFS.WriteFile (fs : DestFS) (path : String) (content : String) (perm : Nat) :
    Except String DestFS :=
  if path = "" then .error "open : no such file or directory"
  else
    let p := filepath.Clean path
    match fs.stat (filepath.Dir p) with
    | some (.dir _) =>
      match fs.stat p with
      | some (.dir _) => .error ("open " ++ p ++ ": is a directory")
      | some (.file _ perm0) => .ok ((p, DestEntry.file content perm0) :: fs)
      | none => .ok ((p, DestEntry.file content perm) :: fs)
    | some (.file _ _) => .error ("open " ++ p ++ ": not a directory")
    | none => .error ("open " ++ p ++ ": no such file or directory")

/-! ## The materializer (`cmd/create.go`, lines 49-117) -/

/-- A call on the destination made by the materializer. -/
inductive FSOp where
  | mkdirAll (path : String) (perm : Nat)
  | writeFile (path : String) (content : String) (perm : Nat)
deriving DecidableEq, Repr

/-- How the walk stands after a step. -/
inductive Status where
  /-- No error so far. -/
  | ok
  /-- An error stopped the run, with its message. -/
  | failed (msg : String)
  /-- A template outside the embedded part of `text/template` was met. -/
  | unmodelled
deriving DecidableEq, Repr

/-- The state of a materialization: the destination, the calls made on it so
far in order, and the status. What was written before an error stays. -/
structure MatState where
  fs : DestFS
  ops : List FSOp
  status : Status
deriving DecidableEq, Repr

/-- The outcome of rendering a text against the template data. -/
inductive RenderResult where
  | ok (out : String)
  | parseError (msg : String)
  | unmodelled
deriving DecidableEq, Repr

/-- The calls `Parse` and `Execute` on a text (create.go, lines 84-90 and
106-114). In the embedded part of the language `Execute` on a
`map[string]string` does not fail. The message of a parse error is given
without its position prefix (`template: name:line: `). -/
def render (text : String) (templateData : List (String × String)) : RenderResult :=
  match templateParse text with
  | .ok nodes => .ok (templateExecute nodes templateData)
  | .functionNotDefined name => .parseError ("function \"" ++ name ++ "\" not defined")
  | .unmodelled => .unmodelled

/-- The value of `relPath`: `filepath.Rel(templateDir, path)` for the entry
reached from the root of the walk by the names `rel`. The walk builds `path`
from `templateDir` by joining these names, so `Rel` does not fail and gives
them back, and `.` at the root itself. -/
def relPath (rel : List String) : String :=
  if rel = [] then "." else String.intercalate "/" rel

/-- The rename loop (create.go, lines 81-94): the new destination path, or
the status that ends the walk. -/
def applyRename (rename : List (String × String)) (templateData : List (String × String))
    (name destPath : String) : Except Status String :=
  match rename.find? (fun kv => name == kv.1) with
  | none => .ok destPath
  | some kv =>
    match render kv.2 templateData with
    | .ok newName => .ok (filepath.Join (filepath.Dir destPath) newName)
    | .parseError msg => .error (.failed ("failed to parse rename template: " ++ msg))
    | .unmodelled => .error .unmodelled

mutual
/-- The function `walk` of `filepath.Walk` at one entry, running the callback
of the create command (create.go, lines 63-117). `rel` holds the names from
the root of the walk to the entry and `path` is its source path. -/
def createWalk (selectedTemplate : Template) (templateData : List (String × String))
    (destDir : String) (path : String) (rel : List String) : FSNode → MatState → MatState
  | .file name mode content, st =>
    if name == "template.json" then st
    else
      match applyRename selectedTemplate.Rename templateData name
          (filepath.Join destDir (relPath rel)) with
      | .error status => { st with status := status }
      | .ok destPath =>
        match content with
        | .error err => { st with status := .failed err }
        | .ok text =>
          match render text templateData with
          | .parseError msg =>
            { st with status := .failed ("failed to parse file template " ++ path ++ ": " ++ msg) }
          | .unmodelled => { st with status := .unmodelled }
          | .ok processedContent =>
            let ops := st.ops ++ [FSOp.writeFile destPath processedContent mode]
            match st.fs.WriteFile destPath processedContent mode with
            | .error err => { st with ops := ops, status := .failed err }
            | .ok fs1 => { fs := fs1, ops := ops, status := .ok }
  | .dir name mode readErr entries, st =>
    match readErr with
    | some err => { st with status := .failed err }
    | none =>
      if name == "template.json" then
        createWalkList selectedTemplate templateData destDir path rel entries st
      else
        match applyRename selectedTemplate.Rename templateData name
            (filepath.Join destDir (relPath rel)) with
        | .error status => { st with status := status }
        | .ok destPath =>
          let ops := st.ops ++ [FSOp.mkdirAll destPath mode]
          match st.fs.MkdirAll destPath mode with
          | .error err => { st with ops := ops, status := .failed err }
          | .ok fs1 =>
            createWalkList selectedTemplate templateData destDir path rel entries
              { fs := fs1, ops := ops, status := .ok }
/-- The loop of `walk` over the entries of the directory at `path`. -/
def createWalkList (selectedTemplate : Template) (templateData : List (String × String))
    (destDir : String) (path : String) (rel : List String) :
    List FSNode → MatState → MatState
  | [], st => st
  | node :: rest, st =>
    let st1 := createWalk selectedTemplate templateData destDir
      (filepath.Join path node.name) (rel ++ [node.name]) node st
    match st1.status with
    | .ok => createWalkList selectedTemplate templateData destDir path rel rest st1
    | _ => st1
end

/-- The report of an error of the walk by `log.Fatalf` (create.go, lines
119-121). -/
def reportWalk (st : MatState) : MatState :=
  match st.status with
  | .failed err => { st with status := .failed ("Failed to create project: " ++ err) }
  | _ => st

/-- The body of the create command from the creation of the project
directory on (create.go, lines 49-121): `tree` is the outcome of `os.Lstat`
on `templateDir` with the tree found there, `fs` the destination before. -/
def materialize (selectedTemplate : Template) (tree : Except String FSNode)
    (projectName authorName : String) (fs : DestFS) : MatState :=
  let destDir := projectName
  let ops := [FSOp.mkdirAll destDir 0o755]
  match fs.MkdirAll destDir 0o755 with
  | .error err =>
    { fs := fs, ops := ops, status := .failed ("Failed to create project directory: " ++ err) }
  | .ok fs1 =>
    let templateData := [("ProjectName", projectName), ("AuthorName", authorName)]
    let templateDir := filepath.Join "templates" selectedTemplate.ID
    match tree with
    | .error err => reportWalk { fs := fs1, ops := ops, status := .failed err }
    | .ok node =>
      reportWalk (createWalk selectedTemplate templateData destDir templateDir [] node
        { fs := fs1, ops := ops, status := .ok })

/-- The `Run` function of `createCmd` (create.go, lines 28-124): `lstat` gives
what is found at a source path, `decode` is `json.Unmarshal` into a
`config.Template`. -/
def createCmd (lstat : String → Except String FSNode)
    (decode : String → Except String Template)
    (projectName authorName templateID : String) (fs : DestFS) : MatState :=
  match DiscoverLocalTemplates decode (lstat "templates") "templates" with
  | .error err =>
    { fs := fs, ops := [], status := .failed ("Error discovering local templates: " ++ err) }
  | .ok localTemplates =>
    match localTemplates.find? (fun t => t.ID == templateID) with
    | none =>
      { fs := fs, ops := [],
        status := .failed ("Template with ID '" ++ templateID ++ "' not found") }
    | some selectedTemplate =>
      materialize selectedTemplate
        (lstat (filepath.Join "templates" selectedTemplate.ID)) projectName authorName fs

/-! ## The registry enable and disable commands (`cmd/registry.go`, lines 111-177) -/

/-- The assignment `xs[i].Enabled = value` on a slice of registries. -/
def assignEnabled (xs : List Registry) (i : Nat) (value : Bool) : List Registry :=
  match xs[i]? with
  | some reg => xs.set i { reg with Enabled := value }
  | none => xs

/-- How a command that changes the configuration ends. -/
inductive CmdOutcome where
  /-- A call of `log.Fatalf`, with its message; nothing was saved. -/
  | fatal (msg : String)
  /-- The configuration that `SaveConfig` was given and persisted. -/
  | saved (cfg : Config)
deriving DecidableEq, Repr

/-- The `Run` function of `registryEnableCmd` (registry.go, lines 116-142),
from the loaded configuration; `SaveConfig` is the outcome of persisting. -/
def registryEnableCmd (SaveConfig : Config → GoError) (cfg : Config) (id : String) :
    CmdOutcome :=
  match rangeFirst (fun reg => reg.ID == id) cfg.Registries with
  | none => .fatal ("Registry '" ++ id ++ "' not found")
  | some i =>
    let cfg1 := { cfg with Registries := assignEnabled cfg.Registries i true }
    match SaveConfig cfg1 with
    | some err => .fatal ("Error saving configuration: " ++ err)
    | none => .saved cfg1

/-- The `Run` function of `registryDisableCmd` (registry.go, lines 150-176),
from the loaded configuration; `SaveConfig` is the outcome of persisting. -/
def registryDisableCmd (SaveConfig : Config → GoError) (cfg : Config) (id : String) :
    CmdOutcome :=
  match rangeFirst (fun reg => reg.ID == id) cfg.Registries with
  | none => .fatal ("Registry '" ++ id ++ "' not found")
  | some i =>
    let cfg1 := { cfg with Registries := assignEnabled cfg.Registries i false }
    match SaveConfig cfg1 with
    | some err => .fatal ("Error saving configuration: " ++ err)
    | none => .saved cfg1

/-- The invariant of the data model: no two registries share an ID and no two
custom templates share an ID. -/
def uniqueIDs (c : Config) : Prop :=
  (c.Registries.map (fun r => r.ID)).Nodup ∧ (c.CustomTemplates.map (fun t => t.ID)).Nodup

/-! ## The init command (`cmd/init.go`) -/

/-- The assembly of `allTemplates` (init.go, lines 26-47) from the results of
`FetchAllRegistries`, `GetCustomTemplates` and `DiscoverLocalTemplates`: a
source that returned an error is left out with a warning. -/
def initCatalog (registryTemplates : List Template × GoError) (customTemplates : List Template)
    (localTemplates : Except String (List Template)) : List Template :=
  let all0 : List Template :=
    match registryTemplates.2 with
    | some _ => []
    | none => [] ++ registryTemplates.1
  let all1 := all0 ++ customTemplates
  match localTemplates with
  | .error _ => all1
  | .ok found => all1 ++ found

/-- The values that the interactive form hands back: the selected template ID,
the project name and the author name. -/
structure FormValues where
  selectedTemplateID : String
  projectName : String
  authorName : String
deriving DecidableEq, Repr

/-- How a run of the init command ends. -/
inductive InitOutcome where
  /-- The catalog is empty: a message is printed and the command returns. -/
  | noTemplates
  /-- The form failed: `os.Exit(1)` with its error. -/
  | formError (msg : String)
  /-- No catalog entry has the selected ID: `os.Exit(1)`. -/
  | notFound (id : String)
  /-- The template was resolved and is reported. -/
  | selected (allTemplates : List Template) (values : FormValues)
      (selectedTemplate : Template)
deriving DecidableEq, Repr

/-- The `Run` function of `initCmd` (init.go, lines 20-124), from the loaded
configuration. `form` is the interactive form: from the options shown, each
a label with a template ID, it gives the values entered or an error. -/
def initCmd (FetchRegistry : Fetcher) (decode : String → Except String Template)
    (localRoot : Except String FSNode)
    (form : List (String × String) → Except String FormValues) (cfg : Config) : InitOutcome :=
  let fetched := FetchAllRegistries FetchRegistry cfg
  let allTemplates := initCatalog (fetched.templates, fetched.err) (GetCustomTemplates cfg)
    (DiscoverLocalTemplates decode localRoot "templates")
  if allTemplates.length = 0 then .noTemplates
  else
    let templateOptions := allTemplates.foldl
      (fun opts tpl => opts ++ [(tpl.Name ++ " (" ++ tpl.Category ++ ")", tpl.ID)]) []
    match form templateOptions with
    | .error err => .formError err
    | .ok values =>
      match allTemplates.find? (fun tpl => tpl.ID == values.selectedTemplateID) with
      | none => .notFound values.selectedTemplateID
      | some selectedTemplate => .selected allTemplates values selectedTemplate

/-- Whether an entry is a manifest: a file named exactly `template.json`. -/
def isManifestFile : FSNode → Bool
  | .file name _ _ => name == "template.json"
  | .dir _ _ _ _ => false

mutual
/-- The tree without its manifests: every file named exactly `template.json`
is removed from the directory that lists it, at every depth. -/
def stripManifests : FSNode → FSNode
  | .file name mode content => .file name mode content
  | .dir name mode readErr entries => .dir name mode readErr (stripManifestsList entries)
/-- The entries of a directory without the manifests, each without its own. -/
def stripManifestsList : List FSNode → List FSNode
  | [] => []
  | node :: rest =>
    if isManifestFile node then stripManifestsList rest
    else stripManifests node :: stripManifestsList rest
end

/-! ## Paths made of file names -/

/-- A file name as a directory lists it: not empty, without separator, and
neither `.` nor `..`. -/
def isFileName (s : String) : Bool :=
  s ≠ "" && !s.data.contains '/' && s ≠ "." && s ≠ ".."

/-- A component that `Clean` keeps: not empty, without separator, not `.` or `..`. -/
def isComp (w : List Char) : Prop := w ≠ [] ∧ '/' ∉ w ∧ w ≠ ['.'] ∧ w ≠ ['.', '.']

/-- The text of a path with the given components. -/
def joinComps : List (List Char) → List Char
  | [] => []
  | [w] => w
  | w :: v :: rest => w ++ '/' :: joinComps (v :: rest)

/-! ## Commit labels (`cmd/list.go`, `cmd/config.go`)

A Go string is a sequence of bytes, `len` counts bytes and a slice expression
cuts at byte offsets; the strings of the embedding stand for their UTF-8
encoding. A label is given as its bytes. -/

/-- The UTF-8 encoding of a character, each byte as a number below 256. -/
def utf8Bytes (c : Char) : List Nat :=
  let n := c.toNat
  if n < 0x80 then [n]
  else if n < 0x800 then [0xC0 + n / 64, 0x80 + n % 64]
  else if n < 0x10000 then [0xE0 + n / 4096, 0x80 + n / 64 % 64, 0x80 + n % 64]
  else [0xF0 + n / 262144, 0x80 + n / 4096 % 64, 0x80 + n / 64 % 64, 0x80 + n % 64]

/-- The bytes of a Go string. -/
def goBytes (s : String) : List Nat :=
  s.data.flatMap utf8Bytes

/-- The outcome of a slice expression on a string. -/
inductive Sliced where
  /-- The bytes of the slice. -/
  | ok (bytes : List Nat)
  /-- The run-time panic `slice bounds out of range [:bound] with length
  length`, which ends the program. -/
  | panic (bound length : Nat)
deriving DecidableEq, Repr

/-- The slice expression `s[:high]`: it panics when `high` exceeds `len(s)`. -/
def sliceTo (s : String) (high : Nat) : Sliced :=
  if high ≤ (goBytes s).length then .ok ((goBytes s).take high)
  else .panic high (goBytes s).length

/-- The value of `commitInfo` in the list command, computed in the loop over
the custom templates (list.go, lines 44-47) and by the same statements in
`printTemplatesByCategory` (list.go, lines 81-84). -/
def listCommitInfo (commit : Option String) : Sliced :=
  match commit with
  | none => .ok (goBytes "latest")
  | some c => sliceTo c 7

/-- The value of `commitInfo` in the config show command (config.go, lines
61-64). -/
def configShowCommitInfo (commit : Option String) : Sliced :=
  match commit with
  | none => .ok (goBytes "latest")
  | some c => sliceTo c (min 7 (goBytes c).length)

/-- The loop of the list command over the custom templates (list.go, lines
43-49): the labels printed, in order, or the panic that ends the program at
the first label that cannot be computed. -/
def listCustomLabels : List Template → Except (Nat × Nat) (List (List Nat))
  | [] => .ok []
  | tpl :: rest =>
    match listCommitInfo tpl.Commit with
    | .panic bound length => .error (bound, length)
    | .ok commitInfo =>
      match listCustomLabels rest with
      | .error e => .error e
      | .ok labels => .ok (commitInfo :: labels)

/-- The registry entries that an import adds when the IDs in `seen` are taken:
an entry whose ID is taken is passed over, any other entry is added and its
ID is taken from then on. -/
def importedEntries (seen : List String) : List RegistryTemplate → List RegistryTemplate
  | [] => []
  | rt :: rest =>
    if rt.ID ∈ seen then importedEntries seen rest
    else rt :: importedEntries (seen ++ [rt.ID]) rest

/-! ## Sample data -/

/-- A registry entry with the given ID. -/
def sampleRegistry (id : String) : Registry :=
  { ID := id, Name := "Official Templates", URL := "https://example.com/registry.json",
    Enabled := true, RequiresAuth := false }

/-- A custom template with the given ID. -/
def sampleCustom (id : String) : CustomTemplate :=
  { ID := id, Name := "Service", Description := "", Repo := "https://example.com/tpl",
    Path := "", Branch := "main", Commit := none, Private := false, Category := "",
    Tags := [] }

/-- A configuration with two registries and two custom templates. -/
def sampleConfig : Config :=
  { GithubToken := "", Registries := [sampleRegistry "official", sampleRegistry "team"],
    CustomTemplates := [sampleCustom "svc", sampleCustom "cli"],
    PrivateRepos := [], PublicRepoURL := "" }

/-- The converted templates, in document order, that the outcome of one fetch
contributes to the catalog: those of the registry when the fetch succeeded,
none when it failed. -/
def fetchedTemplates : Except String TemplateRegistry → List Template
  | .ok registry => registry.Templates.map (registryTemplateToTemplate registry)
  | .error _ => []

/-- A registry entry without a repo of its own. -/
def sampleEntryDefault : RegistryTemplate :=
  { ID := "go-api", Name := "Go API", Description := "", Category := "backend",
    Repo := none, Path := "go/api", Branch := "main", Commit := none, Tags := ["go"] }

/-- A registry entry with its own repo and a pinned commit. -/
def sampleEntryOwn : RegistryTemplate :=
  { ID := "web", Name := "Web", Description := "", Category := "frontend",
    Repo := some "https://example.com/web", Path := "", Branch := "main",
    Commit := some "abc123", Tags := [] }

/-- A registry document with the two sample entries. -/
def sampleDocument : TemplateRegistry :=
  { Version := "1", Name := "A", Description := "", DefaultRepo := "https://example.com/tpl",
    Templates := [sampleEntryDefault, sampleEntryOwn] }

/-- Registries A (enabled), B (disabled) and C (enabled). -/
def sampleRegistries : List Registry :=
  [{ ID := "A", Name := "", URL := "https://a.example/r.json", Enabled := true,
     RequiresAuth := false },
   { ID := "B", Name := "", URL := "https://b.example/r.json", Enabled := false,
     RequiresAuth := false },
   { ID := "C", Name := "", URL := "https://c.example/r.json", Enabled := true,
     RequiresAuth := true }]

/-- A network in which A answers with the sample document and every other
address is unreachable. -/
def sampleFetcher : Fetcher := fun _ url _ _ =>
  if url = "https://a.example/r.json" then .ok sampleDocument
  else .error "connection refused"

mutual
/-- The entries that a walk from `node` at `path` visits, with their paths,
in the order of the visit: a directory, then the walks of its entries in
their order. -/
def walkOrder (path : String) : FSNode → List (String × FSNode)
  | .file name mode content => [(path, .file name mode content)]
  | .dir name mode readErr entries =>
    (path, .dir name mode readErr entries) :: walkOrderList path entries
/-- The entries visited below the directory `path` through `nodes`. -/
def walkOrderList (path : String) : List FSNode → List (String × FSNode)
  | [] => []
  | d :: rest => walkOrder (filepath.Join path d.name) d ++ walkOrderList path rest
end

mutual
/-- A tree that can be walked: every directory in it can be read. -/
def walkable : FSNode → Bool
  | .file _ _ _ => true
  | .dir _ _ readErr entries => readErr.isNone && walkableList entries
/-- Every tree of the list can be walked. -/
def walkableList : List FSNode → Bool
  | [] => true
  | d :: rest => walkable d && walkableList rest
end

/-- The Template that a visited entry stands for: an entry that is a file
named exactly `template.json`, that can be read and whose content decodes,
gives the decoded Template with the directory of the entry's path as Path;
any other entry gives none. -/
def manifestTemplate (decode : String → Except String Template) (entry : String × FSNode) :
    Option Template :=
  match entry.2 with
  | .file name _ (.ok data) =>
    if name = "template.json" then
      match decode data with
      | .ok tpl => some { tpl with Path := filepath.Dir entry.1 }
      | .error _ => none
    else none
  | _ => none

/-- A Template as a manifest declares it, with a path of its own. -/
def sampleManifest : Template :=
  { ID := "b", Name := "B", Description := "", Category := "", Prompts := [],
    Rename := [], Replace := [], Repo := "", Path := "declared/elsewhere", Branch := "",
    Commit := none, Tags := [] }

/-- A decoder that accepts one document and rejects the rest. -/
def sampleDecode : String → Except String Template := fun data =>
  if data = "manifest of b" then .ok sampleManifest
  else .error "invalid character"

/-- A templates directory with a malformed manifest in `a`, a well-formed one
in `b` next to another file, and an unreadable one in `c`. -/
def sampleTemplatesDir : FSNode :=
  .dir "templates" 0o755 none
    [.dir "a" 0o755 none [.file "template.json" 0o644 (.ok "not json")],
     .dir "b" 0o755 none
       [.file "main.go" 0o644 (.ok "package main"),
        .file "template.json" 0o644 (.ok "manifest of b")],
     .dir "c" 0o755 none [.file "template.json" 0o644 (.error "permission denied")]]

/-- A local template without rename rules. -/
def sampleTemplate : Template :=
  { ID := "go", Name := "Go", Description := "", Category := "", Prompts := [],
    Rename := [], Replace := [], Repo := "", Path := "templates/go", Branch := "",
    Commit := none, Tags := [] }

/-- A template tree that holds the single file `README.md`. -/
def readmeTree (rootName : String) (dirMode fileMode : Nat) (content : String) : FSNode :=
  .dir rootName dirMode none [.file "README.md" fileMode (.ok content)]

/-- A template tree that holds the files `main.go.tmpl` and `template.json`. -/
def renameTree (rootName : String) (dirMode fileMode : Nat)
    (content : String) (manifest : Except String String) : FSNode :=
  .dir rootName dirMode none
    [.file "main.go.tmpl" fileMode (.ok content), .file "template.json" fileMode manifest]

/-- A configuration with the registries A, B and C and the custom template
`web`, an ID that the document of A has too. -/
def sampleInitConfig : Config :=
  { sampleConfig with Registries := sampleRegistries, CustomTemplates := [sampleCustom "web"] }

/-- A form in which `web` is selected. -/
def sampleForm : List (String × String) → Except String FormValues := fun _ =>
  .ok { selectedTemplateID := "web", projectName := "Foo", authorName := "Ada" }

/-- A template with one rename rule, for the directory `src`. -/
def renameDirTemplate : Template :=
  { sampleTemplate with Rename := [("src", "{{.ProjectName}}")] }

/-- A template tree whose directory `src` holds a directory `pkg` with one
file. -/
def nestedSrcTree : FSNode :=
  .dir "go" 0o755 none
    [.dir "src" 0o755 none
      [.dir "pkg" 0o755 none [.file "a.go" 0o644 (.ok "package pkg")]]]

/-- A template tree whose directory `src` holds one file. -/
def flatSrcTree : FSNode :=
  .dir "go" 0o755 none [.dir "src" 0o755 none [.file "main.go" 0o644 (.ok "package main")]]

/-- The template that the manifest in `templates/go-service` declares: its ID
is `svc`. -/
def serviceManifest : Template :=
  { ID := "svc", Name := "Service", Description := "", Category := "", Prompts := [],
    Rename := [], Replace := [], Repo := "", Path := "", Branch := "", Commit := none,
    Tags := [] }

/-- The directory `templates/go-service` with a file and its manifest. -/
def goServiceDir : FSNode :=
  .dir "go-service" 0o755 none
    [.file "README.md" 0o644 (.ok "Service"),
     .file "template.json" 0o644 (.ok "manifest of svc")]

/-- A source file system that holds `templates/go-service` and nothing else. -/
def serviceLstat : String → Except String FSNode := fun path =>
  if path = "templates" then .ok (.dir "templates" 0o755 none [goServiceDir])
  else if path = "templates/go-service" then .ok goServiceDir
  else .error ("lstat " ++ path ++ ": no such file or directory")

/-- A decoder for the manifest of `svc`. -/
def serviceDecode : String → Except String Template := fun data =>
  if data = "manifest of svc" then .ok serviceManifest
  else .error "invalid character"

/-- A template whose rename rules have keys that are parts of `README.md` or
a glob pattern for it, and a rule for `main.go`. -/
def sampleRenameTemplate : Template :=
  { sampleTemplate with
    Rename := [("README", "a"), (".md", "b"), ("EADME", "c"), ("*.md", "d"),
      ("main.go", "{{.ProjectName}}.go")] }

/-- A template with a rename rule whose key is `template.json`. -/
def manifestRuleTemplate : Template :=
  { sampleTemplate with Rename := [("template.json", "copied.json")] }

/-- A template tree with a manifest at the top and another one two levels
down, next to a file. -/
def deepManifestTree : FSNode :=
  .dir "go" 0o755 none
    [.dir "cmd" 0o755 none
      [.file "main.go" 0o644 (.ok "package main"),
       .file "template.json" 0o644 (.ok "inner manifest")],
     .file "template.json" 0o644 (.ok "outer manifest")]

/-- A second entry with the ID `go-api`, from another repo. -/
def sampleEntryRepeated : RegistryTemplate :=
  { sampleEntryDefault with Name := "Go API again", Repo := some "https://example.com/other" }

/-- A registry document in which the ID `go-api` occurs twice. -/
def repeatingDocument : TemplateRegistry :=
  { sampleDocument with Templates := [sampleEntryDefault, sampleEntryOwn, sampleEntryRepeated] }

/-- A network in which every address answers with the repeating document. -/
def repeatingFetcher : Fetcher := fun _ _ _ _ => .ok repeatingDocument

/-- A template tree with a directory named `template.json` that holds a
directory with one file. -/
def manifestNamedDirTree : FSNode :=
  .dir "go" 0o755 none
    [.dir "template.json" 0o755 none
      [.dir "sub" 0o755 none [.file "a.txt" 0o644 (.ok "notes")]]]

/-- A template tree with a directory named `template.json` that holds one
file. -/
def manifestNamedDirFlatTree : FSNode :=
  .dir "go" 0o755 none [.dir "template.json" 0o755 none [.file "a.txt" 0o644 (.ok "notes")]]

/-! # Theorems -/

/-! ## Lemmas on the search loop -/

theorem rangeFirst_eq_none {α : Type} (p : α → Bool) (xs : List α) :
    rangeFirst p xs = none ↔ ∀ x ∈ xs, p x = false := by
  induction xs with
  | nil => simp [rangeFirst]
  | cons x xs ih =>
    by_cases hx : p x = true
    · simp [rangeFirst, hx]
    · simp [rangeFirst, hx, ih]

theorem rangeFirst_eq_some {α : Type} (p : α → Bool) (xs : List α) (i : Nat)
    (h : rangeFirst p xs = some i) :
    ∃ pre x post, xs = pre ++ x :: post ∧ pre.length = i ∧ p x = true ∧
      ∀ y ∈ pre, p y = false := by
  induction xs generalizing i with
  | nil => simp [rangeFirst] at h
  | cons x xs ih =>
    by_cases hx : p x = true
    · simp [rangeFirst, hx] at h
      exact ⟨[], x, xs, by simp, by simpa using h, hx, by simp⟩
    · simp only [rangeFirst, hx, Bool.false_eq_true, if_false, Option.map_eq_some'] at h
      obtain ⟨j, hj, rfl⟩ := h
      obtain ⟨pre, y, post, hxs, hlen, hy, hpre⟩ := ih j hj
      refine ⟨x :: pre, y, post, by simp [hxs], by simp [hlen], hy, ?_⟩
      intro z hz
      rcases List.mem_cons.mp hz with rfl | hz
      · simpa using hx
      · exact hpre z hz

theorem rangeFirst_isSome_of_mem {α : Type} (p : α → Bool) (xs : List α) (x : α)
    (hx : x ∈ xs) (hp : p x = true) : ∃ i, rangeFirst p xs = some i := by
  cases h : rangeFirst p xs with
  | some i => exact ⟨i, rfl⟩
  | none =>
    have := (rangeFirst_eq_none p xs).mp h x hx
    rw [hp] at this
    exact absurd this (by simp)

theorem rangeFirst_append_new {α : Type} (p : α → Bool) (xs : List α) (x : α)
    (hxs : ∀ y ∈ xs, p y = false) (hx : p x = true) :
    rangeFirst p (xs ++ [x]) = some xs.length := by
  induction xs with
  | nil => simp [rangeFirst, hx]
  | cons y ys ih =>
    have hy : p y = false := hxs y (by simp)
    have hys : ∀ z ∈ ys, p z = false := fun z hz => hxs z (by simp [hz])
    simp [rangeFirst, hy, ih hys]

theorem spliceOut_append_cons {α : Type} (pre post : List α) (x : α) :
    spliceOut (pre ++ x :: post) pre.length = pre ++ post := by
  simp [spliceOut, List.take_append_eq_append_take, List.drop_append_eq_append_drop]

theorem spliceOut_append_last {α : Type} (xs : List α) (x : α) :
    spliceOut (xs ++ [x]) xs.length = xs := by
  simpa using spliceOut_append_cons xs [] x

/-! ## Configuration mutations: the theorems -/

/-- Claim C3: adding a registry (resp. a custom template) whose ID is the ID of
an entry already present returns the duplicate-ID error and leaves the whole
configuration, so both collections, as it was. -/
theorem C3_add_duplicate_rejected (c : Config) :
    (∀ r : Registry, (∃ e ∈ c.Registries, e.ID = r.ID) →
      AddRegistry c r = (c, some ("registry with ID '" ++ r.ID ++ "' already exists"))) ∧
    (∀ t : CustomTemplate, (∃ e ∈ c.CustomTemplates, e.ID = t.ID) →
      AddCustomTemplate c t =
        (c, some ("template with ID '" ++ t.ID ++ "' already exists"))) := by
  constructor
  · rintro r ⟨e, he, hid⟩
    obtain ⟨i, hi⟩ := rangeFirst_isSome_of_mem (fun x : Registry => x.ID == r.ID)
      c.Registries e he (by simp [hid])
    simp [AddRegistry, hi]
  · rintro t ⟨e, he, hid⟩
    obtain ⟨i, hi⟩ := rangeFirst_isSome_of_mem (fun x : CustomTemplate => x.ID == t.ID)
      c.CustomTemplates e he (by simp [hid])
    simp [AddCustomTemplate, hi]

/-- Witness of C3 on the sample configuration: a second registry `team` and a
second custom template `svc` are rejected. -/
theorem C3_add_duplicate_rejected_witness :
    AddRegistry sampleConfig (sampleRegistry "team") =
      (sampleConfig, some "registry with ID 'team' already exists") ∧
    AddCustomTemplate sampleConfig (sampleCustom "svc") =
      (sampleConfig, some "template with ID 'svc' already exists") :=
  ⟨(C3_add_duplicate_rejected sampleConfig).1 (sampleRegistry "team")
      ⟨sampleRegistry "team", by decide, rfl⟩,
   (C3_add_duplicate_rejected sampleConfig).2 (sampleCustom "svc")
      ⟨sampleCustom "svc", by decide, rfl⟩⟩

/-- Claim C4: for an id that is the ID of no entry of the collection,
`RemoveRegistry`, `RemoveCustomTemplate` and `SetTemplateCommit` (for every
commit, nil or not) return the not-found error and leave the whole
configuration, so both collections, as it was. -/
theorem C4_missing_id_rejected (c : Config) (id : String) :
    ((∀ e ∈ c.Registries, e.ID ≠ id) →
      RemoveRegistry c id = (c, some ("registry with ID '" ++ id ++ "' not found"))) ∧
    ((∀ e ∈ c.CustomTemplates, e.ID ≠ id) →
      RemoveCustomTemplate c id = (c, some ("template with ID '" ++ id ++ "' not found")) ∧
      ∀ commit : Option String,
        SetTemplateCommit c id commit =
          (c, some ("template with ID '" ++ id ++ "' not found"))) := by
  constructor
  · intro h
    have hn : rangeFirst (fun x : Registry => x.ID == id) c.Registries = none :=
      (rangeFirst_eq_none _ _).mpr (fun x hx => by simpa using h x hx)
    simp [RemoveRegistry, hn]
  · intro h
    have hn : rangeFirst (fun x : CustomTemplate => x.ID == id) c.CustomTemplates = none :=
      (rangeFirst_eq_none _ _).mpr (fun x hx => by simpa using h x hx)
    refine ⟨by simp [RemoveCustomTemplate, hn], fun commit => ?_⟩
    simp [SetTemplateCommit, hn]

/-- Witness of C4 on the sample configuration, for the id `ghost`. -/
theorem C4_missing_id_rejected_witness :
    RemoveRegistry sampleConfig "ghost" =
      (sampleConfig, some "registry with ID 'ghost' not found") ∧
    RemoveCustomTemplate sampleConfig "ghost" =
      (sampleConfig, some "template with ID 'ghost' not found") ∧
    SetTemplateCommit sampleConfig "ghost" (some "abc123") =
      (sampleConfig, some "template with ID 'ghost' not found") :=
  ⟨(C4_missing_id_rejected sampleConfig "ghost").1 (by decide),
   ((C4_missing_id_rejected sampleConfig "ghost").2 (by decide)).1,
   ((C4_missing_id_rejected sampleConfig "ghost").2 (by decide)).2 (some "abc123")⟩

/-- Counterexample to C5 as stated: when the ID is already present,
`AddRegistry` fails and changes nothing, and the `RemoveRegistry` that follows
deletes the entry that was there before; the same for custom templates. -/
theorem C5_counterexample :
    (RemoveRegistry (AddRegistry sampleConfig (sampleRegistry "team")).1 "team").1.Registries
        = [sampleRegistry "official"] ∧
    sampleConfig.Registries = [sampleRegistry "official", sampleRegistry "team"] ∧
    (RemoveCustomTemplate (AddCustomTemplate sampleConfig (sampleCustom "svc")).1
        "svc").1.CustomTemplates = [sampleCustom "cli"] ∧
    sampleConfig.CustomTemplates = [sampleCustom "svc", sampleCustom "cli"] := by
  decide

/-- Claim C5, amended: for a registry (resp. a custom template) whose ID is the
ID of no entry already present, both calls succeed and `AddRegistry` followed
by `RemoveRegistry` of the same ID (resp. `AddCustomTemplate` followed by
`RemoveCustomTemplate`) gives back the configuration as it was before the two
calls, element for element and in the same order. -/
theorem C5_add_then_remove_roundtrip (c : Config) :
    (∀ r : Registry, (∀ e ∈ c.Registries, e.ID ≠ r.ID) →
      (AddRegistry c r).2 = none ∧
      RemoveRegistry (AddRegistry c r).1 r.ID = (c, none)) ∧
    (∀ t : CustomTemplate, (∀ e ∈ c.CustomTemplates, e.ID ≠ t.ID) →
      (AddCustomTemplate c t).2 = none ∧
      RemoveCustomTemplate (AddCustomTemplate c t).1 t.ID = (c, none)) := by
  constructor
  · intro r h
    have hf : ∀ x ∈ c.Registries, (fun x : Registry => x.ID == r.ID) x = false :=
      fun x hx => by simpa using h x hx
    have hn := (rangeFirst_eq_none _ _).mpr hf
    have hs := rangeFirst_append_new (fun x : Registry => x.ID == r.ID) c.Registries r hf
      (by simp)
    simp [AddRegistry, hn, RemoveRegistry, hs, spliceOut_append_last]
  · intro t h
    have hf : ∀ x ∈ c.CustomTemplates, (fun x : CustomTemplate => x.ID == t.ID) x = false :=
      fun x hx => by simpa using h x hx
    have hn := (rangeFirst_eq_none _ _).mpr hf
    have hs := rangeFirst_append_new (fun x : CustomTemplate => x.ID == t.ID)
      c.CustomTemplates t hf (by simp)
    simp [AddCustomTemplate, hn, RemoveCustomTemplate, hs, spliceOut_append_last]

/-- Witness of the amended C5 on the sample configuration, for the new IDs
`extra` and `web`. -/
theorem C5_add_then_remove_roundtrip_witness :
    ((AddRegistry sampleConfig (sampleRegistry "extra")).2 = none ∧
      RemoveRegistry (AddRegistry sampleConfig (sampleRegistry "extra")).1 "extra"
        = (sampleConfig, none)) ∧
    ((AddCustomTemplate sampleConfig (sampleCustom "web")).2 = none ∧
      RemoveCustomTemplate (AddCustomTemplate sampleConfig (sampleCustom "web")).1 "web"
        = (sampleConfig, none)) :=
  ⟨(C5_add_then_remove_roundtrip sampleConfig).1 (sampleRegistry "extra") (by decide),
   (C5_add_then_remove_roundtrip sampleConfig).2 (sampleCustom "web") (by decide)⟩

/-- Claim C9: for an id that matches at least one entry, `RemoveRegistry`
(resp. `RemoveCustomTemplate`) returns no error and the sequence afterwards is
the one before with exactly the first entry of that ID deleted: the entries
before it, none of which has the ID, and all entries after it, which may have
it, stay in order, and the length goes down by one. Nothing else of the
configuration changes. -/
theorem C9_remove_deletes_first_match (c : Config) (id : String) :
    ((∃ e ∈ c.Registries, e.ID = id) →
      ∃ pre x post, c.Registries = pre ++ x :: post ∧ x.ID = id ∧
        (∀ y ∈ pre, y.ID ≠ id) ∧
        RemoveRegistry c id = ({ c with Registries := pre ++ post }, none) ∧
        (RemoveRegistry c id).1.Registries.length + 1 = c.Registries.length) ∧
    ((∃ e ∈ c.CustomTemplates, e.ID = id) →
      ∃ pre x post, c.CustomTemplates = pre ++ x :: post ∧ x.ID = id ∧
        (∀ y ∈ pre, y.ID ≠ id) ∧
        RemoveCustomTemplate c id = ({ c with CustomTemplates := pre ++ post }, none) ∧
        (RemoveCustomTemplate c id).1.CustomTemplates.length + 1
          = c.CustomTemplates.length) := by
  constructor
  · rintro ⟨e, he, hid⟩
    obtain ⟨i, hi⟩ := rangeFirst_isSome_of_mem (fun x : Registry => x.ID == id)
      c.Registries e he (by simp [hid])
    obtain ⟨pre, x, post, hxs, hlen, hx, hpre⟩ := rangeFirst_eq_some _ _ _ hi
    have hrm : RemoveRegistry c id = ({ c with Registries := pre ++ post }, none) := by
      simp only [RemoveRegistry, hi]
      rw [hxs, ← hlen, spliceOut_append_cons]
    refine ⟨pre, x, post, hxs, by simpa using hx, fun y hy => by simpa using hpre y hy,
      hrm, ?_⟩
    rw [hrm, hxs]
    simp
    omega
  · rintro ⟨e, he, hid⟩
    obtain ⟨i, hi⟩ := rangeFirst_isSome_of_mem (fun x : CustomTemplate => x.ID == id)
      c.CustomTemplates e he (by simp [hid])
    obtain ⟨pre, x, post, hxs, hlen, hx, hpre⟩ := rangeFirst_eq_some _ _ _ hi
    have hrm : RemoveCustomTemplate c id
        = ({ c with CustomTemplates := pre ++ post }, none) := by
      simp only [RemoveCustomTemplate, hi]
      rw [hxs, ← hlen, spliceOut_append_cons]
    refine ⟨pre, x, post, hxs, by simpa using hx, fun y hy => by simpa using hpre y hy,
      hrm, ?_⟩
    rw [hrm, hxs]
    simp
    omega

/-- Claim C10: for a registry (resp. a custom template) whose ID matches no
entry already present, `AddRegistry` (resp. `AddCustomTemplate`) returns no
error and the sequence afterwards is the one before followed by the new entry
as its last element. Nothing else of the configuration changes. -/
theorem C10_add_appends_last (c : Config) :
    (∀ r : Registry, (∀ e ∈ c.Registries, e.ID ≠ r.ID) →
      AddRegistry c r = ({ c with Registries := c.Registries ++ [r] }, none)) ∧
    (∀ t : CustomTemplate, (∀ e ∈ c.CustomTemplates, e.ID ≠ t.ID) →
      AddCustomTemplate c t
        = ({ c with CustomTemplates := c.CustomTemplates ++ [t] }, none)) := by
  constructor
  · intro r h
    have hn : rangeFirst (fun x : Registry => x.ID == r.ID) c.Registries = none :=
      (rangeFirst_eq_none _ _).mpr (fun x hx => by simpa using h x hx)
    simp [AddRegistry, hn]
  · intro t h
    have hn : rangeFirst (fun x : CustomTemplate => x.ID == t.ID) c.CustomTemplates = none :=
      (rangeFirst_eq_none _ _).mpr (fun x hx => by simpa using h x hx)
    simp [AddCustomTemplate, hn]

/-- Witness of C9 on the sample configuration: removing `official` and `svc`. -/
theorem C9_remove_deletes_first_match_witness :
    (∃ pre x post, sampleConfig.Registries = pre ++ x :: post ∧ x.ID = "official" ∧
        (∀ y ∈ pre, y.ID ≠ "official") ∧
        RemoveRegistry sampleConfig "official"
          = ({ sampleConfig with Registries := pre ++ post }, none) ∧
        (RemoveRegistry sampleConfig "official").1.Registries.length + 1
          = sampleConfig.Registries.length) ∧
    (∃ pre x post, sampleConfig.CustomTemplates = pre ++ x :: post ∧ x.ID = "svc" ∧
        (∀ y ∈ pre, y.ID ≠ "svc") ∧
        RemoveCustomTemplate sampleConfig "svc"
          = ({ sampleConfig with CustomTemplates := pre ++ post }, none) ∧
        (RemoveCustomTemplate sampleConfig "svc").1.CustomTemplates.length + 1
          = sampleConfig.CustomTemplates.length) :=
  ⟨(C9_remove_deletes_first_match sampleConfig "official").1
      ⟨sampleRegistry "official", by decide, rfl⟩,
   (C9_remove_deletes_first_match sampleConfig "svc").2
      ⟨sampleCustom "svc", by decide, rfl⟩⟩

/-- Witness of C10 on the sample configuration, for the new IDs `extra` and
`web`. -/
theorem C10_add_appends_last_witness :
    AddRegistry sampleConfig (sampleRegistry "extra")
      = ({ sampleConfig with
            Registries := sampleConfig.Registries ++ [sampleRegistry "extra"] }, none) ∧
    AddCustomTemplate sampleConfig (sampleCustom "web")
      = ({ sampleConfig with
            CustomTemplates := sampleConfig.CustomTemplates ++ [sampleCustom "web"] }, none) :=
  ⟨(C10_add_appends_last sampleConfig).1 (sampleRegistry "extra") (by decide),
   (C10_add_appends_last sampleConfig).2 (sampleCustom "web") (by decide)⟩

/-! ## Registry fetching: the theorems -/

theorem foldl_append_singleton {α β : Type} (f : α → β) (xs : List α) (init : List β) :
    xs.foldl (fun acc x => acc ++ [f x]) init = init ++ xs.map f := by
  induction xs generalizing init with
  | nil => simp
  | cons x xs ih => simp [ih]

theorem fetchAllLoop_eq (F : Fetcher) (token : String) (regs : List Registry)
    (allTemplates : List Template) (calls : List FetchCall) :
    fetchAllLoop F token regs allTemplates calls =
      (allTemplates ++
        ((regs.filter (fun reg => reg.Enabled)).enumFrom calls.length).flatMap
          (fun p => fetchedTemplates (F p.1 p.2.URL token p.2.RequiresAuth)),
       calls ++ (regs.filter (fun reg => reg.Enabled)).map
          (fun reg => { url := reg.URL, token := token, requiresAuth := reg.RequiresAuth })) := by
  induction regs generalizing allTemplates calls with
  | nil => simp [fetchAllLoop]
  | cons reg rest ih =>
    by_cases hen : reg.Enabled = true
    · cases hF : F calls.length reg.URL token reg.RequiresAuth with
      | error e =>
        simp [fetchAllLoop, hen, hF, ih, fetchedTemplates, List.enumFrom_cons]
      | ok registry =>
        simp [fetchAllLoop, hen, hF, ih, fetchedTemplates, List.enumFrom_cons,
          foldl_append_singleton]
    · simp [fetchAllLoop, hen, ih]

/-- Claim C6: `FetchAllRegistries` returns a nil error and exactly the
concatenation, in stored order, of the converted templates (in document order)
of the enabled registries whose fetch succeeded; a failed fetch contributes
nothing, and the calls of `FetchRegistry` are exactly those for the enabled
registries, in order, so a disabled registry is never fetched. The outcome of
the i-th call is arbitrary. -/
theorem C6_fetch_all_registries (FetchRegistry : Fetcher) (cfg : Config) :
    FetchAllRegistries FetchRegistry cfg =
      { templates :=
          (cfg.Registries.filter (fun reg => reg.Enabled)).enum.flatMap
            (fun p => fetchedTemplates
              (FetchRegistry p.1 p.2.URL cfg.GithubToken p.2.RequiresAuth)),
        err := none,
        calls :=
          (cfg.Registries.filter (fun reg => reg.Enabled)).map
            (fun reg =>
              { url := reg.URL, token := cfg.GithubToken, requiresAuth := reg.RequiresAuth }) } := by
  simp [FetchAllRegistries, fetchAllLoop_eq, List.enum]

/-- The example of the specification: of the registries A (enabled), B
(disabled) and C (enabled, unreachable), only the templates of A are returned,
and B is not fetched. -/
theorem fetch_all_registries_example :
    FetchAllRegistries sampleFetcher { sampleConfig with Registries := sampleRegistries } =
      { templates := sampleDocument.Templates.map (registryTemplateToTemplate sampleDocument),
        err := none,
        calls := [{ url := "https://a.example/r.json", token := "", requiresAuth := false },
                  { url := "https://c.example/r.json", token := "", requiresAuth := true }] } := by
  decide

theorem fetchAll_templates_eq (F : Fetcher) (cfg : Config) :
    (FetchAllRegistries F cfg).templates =
      (cfg.Registries.filter (fun reg => reg.Enabled)).enum.flatMap
        (fun p => fetchedTemplates (F p.1 p.2.URL cfg.GithubToken p.2.RequiresAuth)) := by
  simp [FetchAllRegistries, fetchAllLoop_eq, List.enum]

theorem AddCustomTemplate_cases (c : Config) (t : CustomTemplate) :
    (AddCustomTemplate c t).1 = c ∨
    (AddCustomTemplate c t).1 = { c with CustomTemplates := c.CustomTemplates ++ [t] } := by
  unfold AddCustomTemplate
  cases rangeFirst (fun x : CustomTemplate => x.ID == t.ID) c.CustomTemplates with
  | none => exact Or.inr rfl
  | some i => exact Or.inl rfl

theorem importLoop_mem (registry : TemplateRegistry) (requiresAuth : Bool)
    (rts : List RegistryTemplate) (cfg : Config) (imported : Nat) (ct : CustomTemplate)
    (h : ct ∈ (importLoop registry requiresAuth rts cfg imported).1.CustomTemplates) :
    ct ∈ cfg.CustomTemplates ∨
      ∃ rt ∈ rts, ct = registryTemplateToCustom registry requiresAuth rt := by
  induction rts generalizing cfg imported with
  | nil => exact Or.inl (by simpa [importLoop] using h)
  | cons rt rest ih =>
    have hstep : ct ∈ (AddCustomTemplate cfg
          (registryTemplateToCustom registry requiresAuth rt)).1.CustomTemplates ∨
        ∃ rt' ∈ rest, ct = registryTemplateToCustom registry requiresAuth rt' := by
      unfold importLoop at h
      split at h
      · next cfg1 e heq => rw [heq]; exact ih _ _ h
      · next cfg1 heq => rw [heq]; exact ih _ _ h
    rcases hstep with hmem | ⟨rt', hrt', hct⟩
    · rcases AddCustomTemplate_cases cfg (registryTemplateToCustom registry requiresAuth rt)
        with hc | hc
      · rw [hc] at hmem
        exact Or.inl hmem
      · rw [hc] at hmem
        rcases List.mem_append.mp hmem with hm | hm
        · exact Or.inl hm
        · exact Or.inr ⟨rt, by simp, by simpa using hm⟩
    · exact Or.inr ⟨rt', by simp [hrt'], hct⟩

theorem selectTemplatesToImport_subset (registry : TemplateRegistry) (templateID : String)
    (importAll : Bool) (rts : List RegistryTemplate)
    (h : selectTemplatesToImport registry templateID importAll = .ok rts) :
    ∀ rt ∈ rts, rt ∈ registry.Templates := by
  unfold selectTemplatesToImport at h
  split at h
  · cases h
    exact fun rt hrt => hrt
  · split at h
    · next tpl hfind =>
      cases h
      intro rt hrt
      have : rt = tpl := by simpa using hrt
      rw [this]
      exact List.mem_of_find?_eq_some hfind
    · cases h

theorem rangeFirst_ID_none_iff (xs : List CustomTemplate) (id : String) :
    rangeFirst (fun t => t.ID == id) xs = none ↔ id ∉ xs.map (fun t => t.ID) := by
  rw [rangeFirst_eq_none]
  constructor
  · intro h hmem
    obtain ⟨t, ht, hid⟩ := List.mem_map.mp hmem
    have := h t ht
    simp [hid] at this
  · intro h t ht
    have : t.ID ≠ id := fun heq => h (List.mem_map.mpr ⟨t, ht, heq⟩)
    simpa using this

theorem importLoop_eq (registry : TemplateRegistry) (requiresAuth : Bool)
    (rts : List RegistryTemplate) (cfg : Config) (imported : Nat) :
    importLoop registry requiresAuth rts cfg imported =
      ({ cfg with
          CustomTemplates := (cfg.CustomTemplates ++
            (importedEntries (cfg.CustomTemplates.map (fun t => t.ID)) rts).map
              (registryTemplateToCustom registry requiresAuth)) },
       imported + (importedEntries (cfg.CustomTemplates.map (fun t => t.ID)) rts).length) := by
  induction rts generalizing cfg imported with
  | nil => simp [importLoop, importedEntries]
  | cons rt rest ih =>
    have hid : (registryTemplateToCustom registry requiresAuth rt).ID = rt.ID := rfl
    by_cases hmem : rt.ID ∈ cfg.CustomTemplates.map (fun t => t.ID)
    · have hsome : ∃ i, rangeFirst
          (fun t : CustomTemplate => t.ID == (registryTemplateToCustom registry requiresAuth rt).ID)
          cfg.CustomTemplates = some i := by
        cases hr : rangeFirst
          (fun t : CustomTemplate => t.ID == (registryTemplateToCustom registry requiresAuth rt).ID)
          cfg.CustomTemplates with
        | some i => exact ⟨i, rfl⟩
        | none =>
          rw [hid] at hr
          exact absurd hmem ((rangeFirst_ID_none_iff _ _).mp hr)
      obtain ⟨i, hi⟩ := hsome
      simp only [importLoop, AddCustomTemplate, hi, importedEntries, hmem, if_true]
      exact ih cfg imported
    · have hnone : rangeFirst
          (fun t : CustomTemplate => t.ID == (registryTemplateToCustom registry requiresAuth rt).ID)
          cfg.CustomTemplates = none := by
        rw [hid]
        exact (rangeFirst_ID_none_iff _ _).mpr hmem
      simp only [importLoop, AddCustomTemplate, hnone, importedEntries, hmem, if_false]
      rw [ih]
      simp [hid, Nat.add_assoc, Nat.add_comm]

/-- Claim C7: the Template that `FetchAllRegistries` builds from a registry
entry, and the CustomTemplate that the import command builds from it, have as
Repo the registry's `DefaultRepo` when the entry's repo is nil and the entry's
own repo when it is present, and copy ID, Name, Description, Category, Path,
Branch, Commit and Tags unchanged; the templates returned by
`FetchAllRegistries` are exactly these conversions of the entries of the
successfully fetched enabled registries; every custom template present
after an import that was not there before is such a conversion of an entry of
the fetched registry; an import with `--template` appends exactly the
conversion of the first entry with that ID when no custom template has the ID,
and nothing when one has; and an import with `--all` appends exactly the
conversions of the entries that `importedEntries` gives for the registry. -/
theorem C7_effective_repo :
    (∀ (registry : TemplateRegistry) (rt : RegistryTemplate),
      (rt.Repo = none → (registryTemplateToTemplate registry rt).Repo = registry.DefaultRepo) ∧
      (∀ r, rt.Repo = some r → (registryTemplateToTemplate registry rt).Repo = r) ∧
      (registryTemplateToTemplate registry rt).ID = rt.ID ∧
      (registryTemplateToTemplate registry rt).Name = rt.Name ∧
      (registryTemplateToTemplate registry rt).Description = rt.Description ∧
      (registryTemplateToTemplate registry rt).Category = rt.Category ∧
      (registryTemplateToTemplate registry rt).Path = rt.Path ∧
      (registryTemplateToTemplate registry rt).Branch = rt.Branch ∧
      (registryTemplateToTemplate registry rt).Commit = rt.Commit ∧
      (registryTemplateToTemplate registry rt).Tags = rt.Tags) ∧
    (∀ (registry : TemplateRegistry) (requiresAuth : Bool) (rt : RegistryTemplate),
      (rt.Repo = none →
        (registryTemplateToCustom registry requiresAuth rt).Repo = registry.DefaultRepo) ∧
      (∀ r, rt.Repo = some r → (registryTemplateToCustom registry requiresAuth rt).Repo = r) ∧
      (registryTemplateToCustom registry requiresAuth rt).ID = rt.ID ∧
      (registryTemplateToCustom registry requiresAuth rt).Name = rt.Name ∧
      (registryTemplateToCustom registry requiresAuth rt).Description = rt.Description ∧
      (registryTemplateToCustom registry requiresAuth rt).Category = rt.Category ∧
      (registryTemplateToCustom registry requiresAuth rt).Path = rt.Path ∧
      (registryTemplateToCustom registry requiresAuth rt).Branch = rt.Branch ∧
      (registryTemplateToCustom registry requiresAuth rt).Commit = rt.Commit ∧
      (registryTemplateToCustom registry requiresAuth rt).Tags = rt.Tags) ∧
    (∀ (FetchRegistry : Fetcher) (cfg : Config) (t : Template),
      t ∈ (FetchAllRegistries FetchRegistry cfg).templates ↔
        ∃ i reg registry, (cfg.Registries.filter (fun reg => reg.Enabled))[i]? = some reg ∧
          FetchRegistry i reg.URL cfg.GithubToken reg.RequiresAuth = .ok registry ∧
          ∃ rt ∈ registry.Templates, t = registryTemplateToTemplate registry rt) ∧
    (∀ (FetchRegistry : Fetcher) (SaveConfig : Config → GoError) (cfg : Config)
        (registryURL templateID : String) (importAll requiresAuth : Bool)
        (cfg1 : Config) (imported : Nat) (saved : Bool),
      importCmd FetchRegistry SaveConfig cfg registryURL templateID importAll requiresAuth
          = .done cfg1 imported saved →
        ∃ registry, FetchRegistry 0 registryURL cfg.GithubToken requiresAuth = .ok registry ∧
          ∀ ct ∈ cfg1.CustomTemplates, ct ∈ cfg.CustomTemplates ∨
            ∃ rt ∈ registry.Templates,
              ct = registryTemplateToCustom registry requiresAuth rt) ∧
    (∀ (FetchRegistry : Fetcher) (SaveConfig : Config → GoError) (cfg : Config)
        (registryURL templateID : String) (requiresAuth : Bool)
        (registry : TemplateRegistry) (rt : RegistryTemplate),
      FetchRegistry 0 registryURL cfg.GithubToken requiresAuth = .ok registry →
      templateID ≠ "" →
      registry.Templates.find? (fun tpl => tpl.ID == templateID) = some rt →
      ((∀ t ∈ cfg.CustomTemplates, t.ID ≠ rt.ID) →
        importCmd FetchRegistry SaveConfig cfg registryURL templateID false requiresAuth =
          (match SaveConfig { cfg with
              CustomTemplates := (cfg.CustomTemplates ++
                [registryTemplateToCustom registry requiresAuth rt]) } with
            | some err => .fatal ("Error saving configuration: " ++ err)
            | none =>
              .done { cfg with
                CustomTemplates := (cfg.CustomTemplates ++
                  [registryTemplateToCustom registry requiresAuth rt]) } 1 true)) ∧
      ((∃ t ∈ cfg.CustomTemplates, t.ID = rt.ID) →
        importCmd FetchRegistry SaveConfig cfg registryURL templateID false requiresAuth =
          .done cfg 0 false)) ∧
    (∀ (FetchRegistry : Fetcher) (SaveConfig : Config → GoError) (cfg : Config)
        (registryURL templateID : String) (requiresAuth : Bool)
        (registry : TemplateRegistry),
      FetchRegistry 0 registryURL cfg.GithubToken requiresAuth = .ok registry →
      importCmd FetchRegistry SaveConfig cfg registryURL templateID true requiresAuth =
        (if (importedEntries (cfg.CustomTemplates.map (fun t => t.ID))
              registry.Templates).length > 0 then
          match SaveConfig { cfg with
              CustomTemplates := (cfg.CustomTemplates ++
                (importedEntries (cfg.CustomTemplates.map (fun t => t.ID))
                  registry.Templates).map (registryTemplateToCustom registry requiresAuth)) }
            with
          | some err => .fatal ("Error saving configuration: " ++ err)
          | none =>
            .done { cfg with
              CustomTemplates := (cfg.CustomTemplates ++
                (importedEntries (cfg.CustomTemplates.map (fun t => t.ID))
                  registry.Templates).map (registryTemplateToCustom registry requiresAuth)) }
              (importedEntries (cfg.CustomTemplates.map (fun t => t.ID))
                registry.Templates).length true
        else
          .done { cfg with
            CustomTemplates := (cfg.CustomTemplates ++
              (importedEntries (cfg.CustomTemplates.map (fun t => t.ID))
                registry.Templates).map (registryTemplateToCustom registry requiresAuth)) }
            (importedEntries (cfg.CustomTemplates.map (fun t => t.ID))
              registry.Templates).length false)) := by
  refine ⟨?_, ?_, ?_, ?_, ?_, ?_⟩
  · intro registry rt
    refine ⟨fun h => ?_, fun r h => ?_, rfl, rfl, rfl, rfl, rfl, rfl, rfl, rfl⟩ <;>
      simp [registryTemplateToTemplate, h]
  · intro registry requiresAuth rt
    refine ⟨fun h => ?_, fun r h => ?_, rfl, rfl, rfl, rfl, rfl, rfl, rfl, rfl⟩ <;>
      simp [registryTemplateToCustom, h]
  · intro F cfg t
    rw [fetchAll_templates_eq, List.mem_flatMap]
    constructor
    · rintro ⟨⟨i, reg⟩, hmem, ht⟩
      have hreg := List.mk_mem_enum_iff_getElem?.mp hmem
      cases hF : F i reg.URL cfg.GithubToken reg.RequiresAuth with
      | error e => simp [hF, fetchedTemplates] at ht
      | ok registry =>
        simp only [hF, fetchedTemplates, List.mem_map] at ht
        obtain ⟨rt, hrt, rfl⟩ := ht
        exact ⟨i, reg, registry, hreg, hF, rt, hrt, rfl⟩
    · rintro ⟨i, reg, registry, hreg, hF, rt, hrt, rfl⟩
      refine ⟨(i, reg), List.mk_mem_enum_iff_getElem?.mpr hreg, ?_⟩
      simp only [hF, fetchedTemplates, List.mem_map]
      exact ⟨rt, hrt, rfl⟩
  · intro F save cfg url templateID importAll requiresAuth cfg1 imported saved h
    unfold importCmd at h
    cases hF : F 0 url cfg.GithubToken requiresAuth with
    | error e => simp [hF] at h
    | ok registry =>
      refine ⟨registry, rfl, ?_⟩
      simp only [hF] at h
      split at h
      · cases h
      · cases hsel : selectTemplatesToImport registry templateID importAll with
        | error msg => simp [hsel] at h
        | ok rts =>
          have hsub := selectTemplatesToImport_subset registry templateID importAll rts hsel
          have hcfg : cfg1 = (importLoop registry requiresAuth rts cfg 0).1 := by
            simp only [hsel] at h
            split at h
            · split at h
              · cases h
              · cases h; rfl
            · cases h; rfl
          intro ct hct
          rw [hcfg] at hct
          rcases importLoop_mem registry requiresAuth rts cfg 0 ct hct with hm | ⟨rt, hrt, he⟩
          · exact Or.inl hm
          · exact Or.inr ⟨rt, hsub rt hrt, he⟩

  · intro F save cfg url templateID requiresAuth registry rt hfetch hid hfind
    have hsel : selectTemplatesToImport registry templateID false = .ok [rt] := by
      simp [selectTemplatesToImport, hfind]
    have hlist : (!false && templateID == "") = false := by simp [hid]
    constructor
    · intro hnew
      have hns : rt.ID ∉ cfg.CustomTemplates.map (fun t => t.ID) := by
        intro hmem
        obtain ⟨t, ht, heq⟩ := List.mem_map.mp hmem
        exact hnew t ht heq
      simp only [importCmd, hfetch, hlist, hsel, importLoop_eq, importedEntries, hns,
        Bool.false_eq_true, if_false, List.map_cons, List.map_nil, List.length_cons,
        List.length_nil, Nat.zero_add, Nat.lt_add_one, if_true]
    · rintro ⟨t, ht, heq⟩
      have hs : rt.ID ∈ cfg.CustomTemplates.map (fun t => t.ID) :=
        List.mem_map.mpr ⟨t, ht, heq⟩
      simp only [importCmd, hfetch, hlist, hsel, importLoop_eq, importedEntries, hs,
        Bool.false_eq_true, if_false, if_true, List.map_nil, List.length_nil,
        List.append_nil, Nat.lt_irrefl, Nat.add_zero, gt_iff_lt]
  · intro F save cfg url templateID requiresAuth registry hfetch
    simp only [importCmd, hfetch, selectTemplatesToImport, importLoop_eq, Bool.not_true,
      Bool.false_and, Bool.false_eq_true, if_false, if_true, Nat.zero_add]

/-- Witness of C7 on the sample document, whose default repo is
`https://example.com/tpl`: the entry without a repo gets the default, the
entry with its own repo keeps it, the first is among the templates that
`FetchAllRegistries` returns, an import with `--all` adds the two
conversions, and an import with `--template web` adds the conversion of that
entry, or nothing when a custom template `web` is there already. -/
theorem C7_effective_repo_witness :
    (registryTemplateToTemplate sampleDocument sampleEntryDefault).Repo
        = "https://example.com/tpl" ∧
    (registryTemplateToTemplate sampleDocument sampleEntryOwn).Repo
        = "https://example.com/web" ∧
    (registryTemplateToCustom sampleDocument false sampleEntryDefault).Repo
        = "https://example.com/tpl" ∧
    (registryTemplateToCustom sampleDocument false sampleEntryOwn).Repo
        = "https://example.com/web" ∧
    registryTemplateToTemplate sampleDocument sampleEntryDefault ∈
      (FetchAllRegistries sampleFetcher
        { sampleConfig with Registries := sampleRegistries }).templates ∧
    (∃ registry, sampleFetcher 0 "https://a.example/r.json" "" false = .ok registry ∧
      ∀ ct ∈ (sampleConfig.CustomTemplates ++
          [registryTemplateToCustom sampleDocument false sampleEntryDefault,
           registryTemplateToCustom sampleDocument false sampleEntryOwn]),
        ct ∈ sampleConfig.CustomTemplates ∨
          ∃ rt ∈ registry.Templates, ct = registryTemplateToCustom registry false rt) ∧
    importCmd sampleFetcher (fun _ => none) sampleConfig "https://a.example/r.json" "web"
        false false =
      .done { sampleConfig with
        CustomTemplates := (sampleConfig.CustomTemplates ++
          [registryTemplateToCustom sampleDocument false sampleEntryOwn]) } 1 true ∧
    importCmd sampleFetcher (fun _ => none) sampleInitConfig "https://a.example/r.json" "web"
        false false = .done sampleInitConfig 0 false ∧
    importCmd sampleFetcher (fun _ => none) sampleConfig "https://a.example/r.json" ""
        true false =
      .done { sampleConfig with
        CustomTemplates := (sampleConfig.CustomTemplates ++
          [registryTemplateToCustom sampleDocument false sampleEntryDefault,
           registryTemplateToCustom sampleDocument false sampleEntryOwn]) } 2 true :=
  ⟨(C7_effective_repo.1 sampleDocument sampleEntryDefault).1 rfl,
   (C7_effective_repo.1 sampleDocument sampleEntryOwn).2.1 _ rfl,
   (C7_effective_repo.2.1 sampleDocument false sampleEntryDefault).1 rfl,
   (C7_effective_repo.2.1 sampleDocument false sampleEntryOwn).2.1 _ rfl,
   (C7_effective_repo.2.2.1 sampleFetcher
      { sampleConfig with Registries := sampleRegistries } _).mpr
      ⟨0, { ID := "A", Name := "", URL := "https://a.example/r.json", Enabled := true,
              RequiresAuth := false }, sampleDocument, by decide, rfl,
        sampleEntryDefault, by decide, rfl⟩,
   C7_effective_repo.2.2.2.1 sampleFetcher (fun _ => none) sampleConfig
      "https://a.example/r.json" "" true false
      { sampleConfig with
        CustomTemplates := sampleConfig.CustomTemplates ++
          [registryTemplateToCustom sampleDocument false sampleEntryDefault,
           registryTemplateToCustom sampleDocument false sampleEntryOwn] } 2 true
      (by decide),
   (C7_effective_repo.2.2.2.2.1 sampleFetcher (fun _ => none) sampleConfig
      "https://a.example/r.json" "web" false sampleDocument sampleEntryOwn rfl (by decide)
      rfl).1 (by decide),
   (C7_effective_repo.2.2.2.2.1 sampleFetcher (fun _ => none) sampleInitConfig
      "https://a.example/r.json" "web" false sampleDocument sampleEntryOwn rfl (by decide)
      rfl).2 ⟨sampleCustom "web", by decide, rfl⟩,
   (C7_effective_repo.2.2.2.2.2 sampleFetcher (fun _ => none) sampleConfig
      "https://a.example/r.json" "" false sampleDocument rfl).trans (by decide)⟩

/-! ## Local template discovery: the theorems -/

mutual
theorem discoverWalk_eq (decode : String → Except String Template) (path : String) :
    ∀ (node : FSNode) (acc : List Template), walkable node = true →
      discoverWalk decode path node acc =
        .ok (acc ++ (walkOrder path node).filterMap (manifestTemplate decode))
  | .file name mode content, acc, _ => by
    by_cases hn : name = "template.json"
    · cases content with
      | error e => simp [discoverWalk, walkOrder, manifestTemplate, hn]
      | ok data =>
        cases hd : decode data with
        | error e => simp [discoverWalk, walkOrder, manifestTemplate, hn, hd]
        | ok tpl => simp [discoverWalk, walkOrder, manifestTemplate, hn, hd]
    · cases content <;> simp [discoverWalk, walkOrder, manifestTemplate, hn]
  | .dir name mode readErr entries, acc, h => by
    cases readErr with
    | some e => simp [walkable] at h
    | none =>
      have hl : walkableList entries = true := by simpa [walkable] using h
      have := discoverWalkList_eq decode path entries acc hl
      simp [discoverWalk, walkOrder, manifestTemplate, this]
theorem discoverWalkList_eq (decode : String → Except String Template) (path : String) :
    ∀ (nodes : List FSNode) (acc : List Template), walkableList nodes = true →
      discoverWalkList decode path nodes acc =
        .ok (acc ++ (walkOrderList path nodes).filterMap (manifestTemplate decode))
  | [], acc, _ => by simp [discoverWalkList, walkOrderList]
  | d :: rest, acc, h => by
    have hd : walkable d = true ∧ walkableList rest = true := by simpa [walkableList] using h
    have h1 := discoverWalk_eq decode (filepath.Join path d.name) d acc hd.1
    have h2 := discoverWalkList_eq decode path rest
      (acc ++ (walkOrder (filepath.Join path d.name) d).filterMap (manifestTemplate decode))
      hd.2
    simp [discoverWalkList, walkOrderList, h1, h2, List.filterMap_append]
end

/-- Claim C8: on a tree that can be walked, `DiscoverLocalTemplates` returns
without error exactly one Template per visited file named exactly
`template.json` that can be read and decoded, in walk order, each with Path
set to `filepath.Dir` of the manifest's path whatever path the manifest
declares; a manifest that cannot be read or decoded contributes nothing and
does not stop the walk. -/
theorem C8_discover_local_templates (decode : String → Except String Template)
    (node : FSNode) (dir : String) (h : walkable node = true) :
    DiscoverLocalTemplates decode (.ok node) dir =
      .ok ((walkOrder dir node).filterMap (manifestTemplate decode)) := by
  simp [DiscoverLocalTemplates, discoverWalk_eq decode dir node [] h]

/-- Witness of C8: of one malformed, one well-formed and one unreadable
manifest exactly the well-formed one is returned, with the directory
`templates/b` that contains it as Path in place of the declared path. -/
theorem C8_discover_local_templates_witness :
    DiscoverLocalTemplates sampleDecode (.ok sampleTemplatesDir) "templates" =
      .ok [{ sampleManifest with Path := "templates/b" }] :=
  (C8_discover_local_templates sampleDecode sampleTemplatesDir "templates" (by decide)).trans
    (by rfl)

/-! ## The materializer: the theorems -/

/-- Counterexample to C1 as stated: in `text/template` the action
`{{ProjectName}}` is a call of a function `ProjectName`, which is not defined,
so `Parse` fails on the content `Hello {{ProjectName}}`; the walk stops with
that error and no `README.md` is written. -/
theorem C1_counterexample :
    (materialize sampleTemplate (.ok (readmeTree "go" 0o755 0o644 "Hello {{ProjectName}}"))
        "Foo" "Ada" []).status =
      .failed ("Failed to create project: " ++
        "failed to parse file template templates/go/README.md: " ++
        "function \"ProjectName\" not defined") ∧
    (materialize sampleTemplate (.ok (readmeTree "go" 0o755 0o644 "Hello {{ProjectName}}"))
        "Foo" "Ada" []).fs.stat "Foo/README.md" = none := by
  decide

theorem applyRename_no_rule (rename templateData : List (String × String))
    (name destPath : String) (h : ∀ kv ∈ rename, kv.1 ≠ name) :
    applyRename rename templateData name destPath = .ok destPath := by
  have hf : rename.find? (fun kv => name == kv.1) = none := by
    rw [List.find?_eq_none]
    intro kv hkv
    have := h kv hkv
    simpa using fun heq : name = kv.1 => this heq.symm
  simp [applyRename, hf]

/-- Claim C1, amended: with the content `Hello {{.ProjectName}}`, the field
syntax of `text/template`, materializing a template whose tree holds the file
`README.md` and whose rename rules do not apply to it, with ProjectName `Foo`
and any AuthorName, into an empty destination succeeds and writes the file
`Foo/README.md` with content exactly `Hello Foo`. -/
theorem C1_materialize_readme (selectedTemplate : Template)
    (rootName authorName : String) (dirMode fileMode : Nat)
    (hRename : ∀ kv ∈ selectedTemplate.Rename, kv.1 ≠ "README.md" ∧ kv.1 ≠ rootName) :
    (materialize selectedTemplate
        (.ok (readmeTree rootName dirMode fileMode "Hello {{.ProjectName}}"))
        "Foo" authorName []).status = .ok ∧
    (materialize selectedTemplate
        (.ok (readmeTree rootName dirMode fileMode "Hello {{.ProjectName}}"))
        "Foo" authorName []).fs.stat "Foo/README.md"
      = some (.file "Hello Foo" fileMode) := by
  have hcontent : render "Hello {{.ProjectName}}"
      [("ProjectName", "Foo"), ("AuthorName", authorName)] = .ok "Hello Foo" := rfl
  have hmk : DestFS.MkdirAll [] "Foo" 0o755 = .ok [("Foo", .dir 0o755)] := rfl
  have hmk2 : DestFS.MkdirAll [("Foo", .dir 0o755)] "Foo" dirMode
      = .ok [("Foo", .dir 0o755)] := rfl
  have hwr : DestFS.WriteFile [("Foo", .dir 0o755)] "Foo/README.md" "Hello Foo" fileMode
      = .ok [("Foo/README.md", .file "Hello Foo" fileMode), ("Foo", .dir 0o755)] := rfl
  have hj : filepath.Join "Foo" (relPath ["README.md"]) = "Foo/README.md" := by decide
  have hj0 : filepath.Join "Foo" (relPath []) = "Foo" := by decide
  have hfile := fun d => applyRename_no_rule selectedTemplate.Rename
    [("ProjectName", "Foo"), ("AuthorName", authorName)] "README.md" d
    (fun kv hkv => (hRename kv hkv).1)
  have hdir := fun d => applyRename_no_rule selectedTemplate.Rename
    [("ProjectName", "Foo"), ("AuthorName", authorName)] rootName d
    (fun kv hkv => (hRename kv hkv).2)
  have hst : DestFS.stat [("Foo/README.md", .file "Hello Foo" fileMode), ("Foo", .dir 0o755)]
      "Foo/README.md" = some (.file "Hello Foo" fileMode) := rfl
  by_cases hroot : rootName = "template.json"
  · simp [materialize, reportWalk, readmeTree, createWalk, createWalkList, FSNode.name, hroot,
      hcontent, hmk, hwr, hj, hfile, hst]
  · simp [materialize, reportWalk, readmeTree, createWalk, createWalkList, FSNode.name, hroot,
      hcontent, hmk, hmk2, hwr, hj, hj0, hfile, hdir, hst]

/-- Witness of the amended C1 for the sample template and the author `Ada`. -/
theorem C1_materialize_readme_witness :
    (materialize sampleTemplate
        (.ok (readmeTree "go" 0o755 0o644 "Hello {{.ProjectName}}"))
        "Foo" "Ada" []).status = .ok ∧
    (materialize sampleTemplate
        (.ok (readmeTree "go" 0o755 0o644 "Hello {{.ProjectName}}"))
        "Foo" "Ada" []).fs.stat "Foo/README.md"
      = some (.file "Hello Foo" 0o644) :=
  C1_materialize_readme sampleTemplate "go" "Ada" 0o755 0o644 (by decide)

/-- Counterexample to C2 as stated: the rename pattern `{{ProjectName}}.go`
calls the undefined function `ProjectName`, so `Parse` fails on it; the walk
stops at `main.go.tmpl` with that error and no `app.go` is written. -/
theorem C2_counterexample :
    (materialize { sampleTemplate with Rename := [("main.go.tmpl", "{{ProjectName}}.go")] }
        (.ok (renameTree "go" 0o755 0o644 "package main" (.ok "manifest")))
        "app" "Ada" []).status =
      .failed ("Failed to create project: " ++
        "failed to parse rename template: function \"ProjectName\" not defined") ∧
    (materialize { sampleTemplate with Rename := [("main.go.tmpl", "{{ProjectName}}.go")] }
        (.ok (renameTree "go" 0o755 0o644 "package main" (.ok "manifest")))
        "app" "Ada" []).fs = [("app", .dir 0o755)] := by
  decide

/-- Claim C2, amended: with the rename rule `main.go.tmpl` to
`{{.ProjectName}}.go`, the field syntax of `text/template`, and ProjectName
`app`, materializing a tree that holds `main.go.tmpl` (with a content that
renders) and `template.json` into an empty destination succeeds, and the
destination then consists of the directory `app` and the file `app/app.go`
with the rendered content: there is no `main.go.tmpl` and no `template.json`
in it. -/
theorem C2_materialize_rename (selectedTemplate : Template)
    (hRename : selectedTemplate.Rename = [("main.go.tmpl", "{{.ProjectName}}.go")])
    (rootName authorName content out : String) (manifest : Except String String)
    (dirMode fileMode : Nat) (hroot : rootName ≠ "main.go.tmpl")
    (hrender : render content [("ProjectName", "app"), ("AuthorName", authorName)] = .ok out) :
    materialize selectedTemplate
        (.ok (renameTree rootName dirMode fileMode content manifest)) "app" authorName [] =
      { fs := [("app/app.go", .file out fileMode), ("app", .dir 0o755)],
        ops := if rootName = "template.json" then
            [.mkdirAll "app" 0o755, .writeFile "app/app.go" out fileMode]
          else [.mkdirAll "app" 0o755, .mkdirAll "app" dirMode,
            .writeFile "app/app.go" out fileMode],
        status := .ok } := by
  have hname : render "{{.ProjectName}}.go"
      [("ProjectName", "app"), ("AuthorName", authorName)] = .ok "app.go" := rfl
  have hmk : DestFS.MkdirAll [] "app" 0o755 = .ok [("app", .dir 0o755)] := rfl
  have hmk2 : DestFS.MkdirAll [("app", .dir 0o755)] "app" dirMode
      = .ok [("app", .dir 0o755)] := rfl
  have hwr : DestFS.WriteFile [("app", .dir 0o755)] "app/app.go" out fileMode
      = .ok [("app/app.go", .file out fileMode), ("app", .dir 0o755)] := rfl
  have hj : filepath.Join "app" (relPath ["main.go.tmpl"]) = "app/main.go.tmpl" := by decide
  have hj0 : filepath.Join "app" (relPath []) = "app" := by decide
  have hd : filepath.Join (filepath.Dir "app/main.go.tmpl") "app.go" = "app/app.go" := by
    decide
  have hr : (rootName == "main.go.tmpl") = false := by simpa using hroot
  cases selectedTemplate with
  | mk ID Name Description Category Prompts Rename Replace Repo Path Branch Commit Tags =>
    simp only at hRename
    subst hRename
    by_cases hroot2 : rootName = "template.json"
    · subst hroot2
      simp [materialize, reportWalk, renameTree, createWalk, createWalkList, applyRename, FSNode.name,
        hname, hmk, hwr, hj, hd, hrender]
    · simp [materialize, reportWalk, renameTree, createWalk, createWalkList, applyRename, FSNode.name,
        hname, hmk, hmk2, hwr, hj, hj0, hd, hrender, hroot2, hr]

/-- Witness of the amended C2 for the sample template, the author `Ada` and
the content `package main`. -/
theorem C2_materialize_rename_witness :
    materialize { sampleTemplate with Rename := [("main.go.tmpl", "{{.ProjectName}}.go")] }
        (.ok (renameTree "go" 0o755 0o644 "package main" (.ok "manifest"))) "app" "Ada" [] =
      { fs := [("app/app.go", .file "package main" 0o644), ("app", .dir 0o755)],
        ops := [.mkdirAll "app" 0o755, .mkdirAll "app" 0o755,
          .writeFile "app/app.go" "package main" 0o644],
        status := .ok } :=
  C2_materialize_rename
    { sampleTemplate with Rename := [("main.go.tmpl", "{{.ProjectName}}.go")] } rfl
    "go" "Ada" "package main" "package main" (.ok "manifest") 0o755 0o644 (by decide) rfl

/-! ## Pinning, enabling and the invariant: the theorems -/

theorem getElem?_append_cons_length {α : Type} (pre post : List α) (x : α) :
    (pre ++ x :: post)[pre.length]? = some x := by
  induction pre with
  | nil => simp
  | cons y ys ih => simpa using ih

theorem set_append_cons_length {α : Type} (pre post : List α) (x y : α) :
    (pre ++ x :: post).set pre.length y = pre ++ y :: post := by
  induction pre with
  | nil => simp
  | cons z zs ih => simp

theorem assignCommit_append_cons (pre post : List CustomTemplate) (x : CustomTemplate)
    (commit : Option String) :
    assignCommit (pre ++ x :: post) pre.length commit
      = pre ++ { x with Commit := commit } :: post := by
  unfold assignCommit
  rw [getElem?_append_cons_length]
  exact set_append_cons_length pre post x _

theorem assignEnabled_append_cons (pre post : List Registry) (x : Registry) (value : Bool) :
    assignEnabled (pre ++ x :: post) pre.length value
      = pre ++ { x with Enabled := value } :: post := by
  unfold assignEnabled
  rw [getElem?_append_cons_length]
  exact set_append_cons_length pre post x _

/-- Claim C11: for an id that matches at least one custom template and every
commit (a string or nil), `SetTemplateCommit` returns no error and the
configuration afterwards differs from the one before only in the Commit of
the first custom template with that ID, which is the given value; the other
fields of that template, the templates before and after it, their order and
number, and the registries are as before. -/
theorem C11_set_template_commit (c : Config) (id : String) (commit : Option String)
    (h : ∃ e ∈ c.CustomTemplates, e.ID = id) :
    ∃ pre x post, c.CustomTemplates = pre ++ x :: post ∧ x.ID = id ∧
      (∀ y ∈ pre, y.ID ≠ id) ∧
      SetTemplateCommit c id commit =
        ({ c with CustomTemplates := pre ++ { x with Commit := commit } :: post }, none) ∧
      (SetTemplateCommit c id commit).1.CustomTemplates.length = c.CustomTemplates.length ∧
      (SetTemplateCommit c id commit).1.Registries = c.Registries := by
  obtain ⟨e, he, hid⟩ := h
  obtain ⟨i, hi⟩ := rangeFirst_isSome_of_mem (fun x : CustomTemplate => x.ID == id)
    c.CustomTemplates e he (by simp [hid])
  obtain ⟨pre, x, post, hxs, hlen, hx, hpre⟩ := rangeFirst_eq_some _ _ _ hi
  have hset : SetTemplateCommit c id commit =
      ({ c with CustomTemplates := pre ++ { x with Commit := commit } :: post }, none) := by
    simp only [SetTemplateCommit, hi]
    rw [hxs, ← hlen, assignCommit_append_cons]
  refine ⟨pre, x, post, hxs, by simpa using hx, fun y hy => by simpa using hpre y hy,
    hset, ?_, ?_⟩
  · rw [hset, hxs]; simp
  · rw [hset]

/-- Witness of C11 on the sample configuration: pinning `cli` to `abc123`. -/
theorem C11_set_template_commit_witness :
    ∃ pre x post, sampleConfig.CustomTemplates = pre ++ x :: post ∧ x.ID = "cli" ∧
      (∀ y ∈ pre, y.ID ≠ "cli") ∧
      SetTemplateCommit sampleConfig "cli" (some "abc123") =
        ({ sampleConfig with
            CustomTemplates := pre ++ { x with Commit := some "abc123" } :: post }, none) ∧
      (SetTemplateCommit sampleConfig "cli" (some "abc123")).1.CustomTemplates.length
        = sampleConfig.CustomTemplates.length ∧
      (SetTemplateCommit sampleConfig "cli" (some "abc123")).1.Registries
        = sampleConfig.Registries :=
  C11_set_template_commit sampleConfig "cli" (some "abc123")
    ⟨sampleCustom "cli", by decide, rfl⟩

/-- Claim C12: when no registry has the ID, the enable and the disable command
end in the not-found failure and save nothing; otherwise the configuration
they hand to `SaveConfig` differs from the loaded one only in the enabled flag
of the first registry with that ID, which is true for enable and false for
disable, and the command ends with that configuration saved, or in the
failure of `SaveConfig`. -/
theorem C12_registry_enable_disable (SaveConfig : Config → GoError) (c : Config)
    (id : String) :
    ((∀ e ∈ c.Registries, e.ID ≠ id) →
      registryEnableCmd SaveConfig c id = .fatal ("Registry '" ++ id ++ "' not found") ∧
      registryDisableCmd SaveConfig c id = .fatal ("Registry '" ++ id ++ "' not found")) ∧
    ((∃ e ∈ c.Registries, e.ID = id) →
      ∃ pre x post, c.Registries = pre ++ x :: post ∧ x.ID = id ∧
        (∀ y ∈ pre, y.ID ≠ id) ∧
        registryEnableCmd SaveConfig c id =
          (match SaveConfig { c with Registries := pre ++ { x with Enabled := true } :: post }
            with
            | some err => .fatal ("Error saving configuration: " ++ err)
            | none =>
              .saved { c with Registries := pre ++ { x with Enabled := true } :: post }) ∧
        registryDisableCmd SaveConfig c id =
          (match SaveConfig { c with Registries := pre ++ { x with Enabled := false } :: post }
            with
            | some err => .fatal ("Error saving configuration: " ++ err)
            | none =>
              .saved { c with Registries := pre ++ { x with Enabled := false } :: post })) := by
  constructor
  · intro h
    have hn : rangeFirst (fun x : Registry => x.ID == id) c.Registries = none :=
      (rangeFirst_eq_none _ _).mpr (fun x hx => by simpa using h x hx)
    simp [registryEnableCmd, registryDisableCmd, hn]
  · rintro ⟨e, he, hid⟩
    obtain ⟨i, hi⟩ := rangeFirst_isSome_of_mem (fun x : Registry => x.ID == id)
      c.Registries e he (by simp [hid])
    obtain ⟨pre, x, post, hxs, hlen, hx, hpre⟩ := rangeFirst_eq_some _ _ _ hi
    have ha : ∀ value, assignEnabled c.Registries i value
        = pre ++ { x with Enabled := value } :: post := by
      intro value
      rw [hxs, ← hlen, assignEnabled_append_cons]
    refine ⟨pre, x, post, hxs, by simpa using hx, fun y hy => by simpa using hpre y hy,
      ?_, ?_⟩
    · simp only [registryEnableCmd, hi, ha]
    · simp only [registryDisableCmd, hi, ha]

/-- Witness of C12 on the sample configuration with a `SaveConfig` that
succeeds: `ghost` is not found, and `team` is enabled and disabled. -/
theorem C12_registry_enable_disable_witness :
    (registryEnableCmd (fun _ => none) sampleConfig "ghost"
        = .fatal "Registry 'ghost' not found" ∧
      registryDisableCmd (fun _ => none) sampleConfig "ghost"
        = .fatal "Registry 'ghost' not found") ∧
    (∃ pre x post, sampleConfig.Registries = pre ++ x :: post ∧ x.ID = "team" ∧
        (∀ y ∈ pre, y.ID ≠ "team") ∧
        registryEnableCmd (fun _ => none) sampleConfig "team" =
          .saved { sampleConfig with
            Registries := pre ++ { x with Enabled := true } :: post } ∧
        registryDisableCmd (fun _ => none) sampleConfig "team" =
          .saved { sampleConfig with
            Registries := pre ++ { x with Enabled := false } :: post }) :=
  ⟨(C12_registry_enable_disable (fun _ => none) sampleConfig "ghost").1 (by decide),
   (C12_registry_enable_disable (fun _ => none) sampleConfig "team").2
      ⟨sampleRegistry "team", by decide, rfl⟩⟩

theorem nodup_map_append_new {α : Type} (f : α → String) (xs : List α) (x : α)
    (hxs : (xs.map f).Nodup) (hx : ∀ y ∈ xs, f y ≠ f x) : ((xs ++ [x]).map f).Nodup := by
  rw [List.map_append, List.nodup_append]
  refine ⟨hxs, by simp, ?_⟩
  intro a ha hb
  simp only [List.map_cons, List.map_nil, List.mem_singleton] at hb
  obtain ⟨y, hy, rfl⟩ := List.mem_map.mp ha
  exact hx y hy hb

theorem nodup_map_spliceOut {α : Type} (f : α → String) (xs : List α) (i : Nat)
    (hxs : (xs.map f).Nodup) : ((spliceOut xs i).map f).Nodup := by
  have hsub : List.Sublist (spliceOut xs i) xs := by
    unfold spliceOut
    conv => rhs; rw [← List.take_append_drop i xs]
    exact List.Sublist.append (List.Sublist.refl _)
      (by rw [← List.drop_drop]; exact List.drop_sublist 1 _)
  exact hxs.sublist (hsub.map f)

theorem map_ID_assignCommit (xs : List CustomTemplate) (i : Nat) (commit : Option String) :
    (assignCommit xs i commit).map (fun t => t.ID) = xs.map (fun t => t.ID) := by
  unfold assignCommit
  cases h : xs[i]? with
  | none => rfl
  | some t =>
    apply List.ext_getElem?
    intro n
    by_cases hn : i = n
    · subst hn
      have hlt : i < xs.length := by
        rcases Nat.lt_or_ge i xs.length with hl | hl
        · exact hl
        · rw [List.getElem?_eq_none hl] at h
          cases h
      have hget : xs[i] = t := by
        rw [List.getElem?_eq_getElem hlt] at h
        exact Option.some.inj h
      simp [List.getElem?_map, List.getElem?_set, hlt, hget]
    · simp [List.getElem?_map, List.getElem?_set, hn]

/-- Claim C13: ID uniqueness is an invariant of the configuration mutations:
in a configuration where no two registries share an ID and no two custom
templates share an ID, the same holds after `AddRegistry`, `RemoveRegistry`,
`AddCustomTemplate`, `RemoveCustomTemplate` and `SetTemplateCommit`, for all
arguments and whether the call returns an error or not. -/
theorem C13_unique_ids_invariant (c : Config) (h : uniqueIDs c) :
    (∀ r : Registry, uniqueIDs (AddRegistry c r).1) ∧
    (∀ id : String, uniqueIDs (RemoveRegistry c id).1) ∧
    (∀ t : CustomTemplate, uniqueIDs (AddCustomTemplate c t).1) ∧
    (∀ id : String, uniqueIDs (RemoveCustomTemplate c id).1) ∧
    (∀ (id : String) (commit : Option String), uniqueIDs (SetTemplateCommit c id commit).1) := by
  obtain ⟨hr, ht⟩ := h
  refine ⟨fun r => ?_, fun id => ?_, fun t => ?_, fun id => ?_, fun id commit => ?_⟩
  · unfold AddRegistry
    cases hf : rangeFirst (fun x : Registry => x.ID == r.ID) c.Registries with
    | some i => exact ⟨hr, ht⟩
    | none =>
      refine ⟨nodup_map_append_new (fun x : Registry => x.ID) _ r hr ?_, ht⟩
      intro y hy
      simpa using (rangeFirst_eq_none _ _).mp hf y hy
  · unfold RemoveRegistry
    cases hf : rangeFirst (fun x : Registry => x.ID == id) c.Registries with
    | some i => exact ⟨nodup_map_spliceOut (fun x : Registry => x.ID) _ i hr, ht⟩
    | none => exact ⟨hr, ht⟩
  · unfold AddCustomTemplate
    cases hf : rangeFirst (fun x : CustomTemplate => x.ID == t.ID) c.CustomTemplates with
    | some i => exact ⟨hr, ht⟩
    | none =>
      refine ⟨hr, nodup_map_append_new (fun x : CustomTemplate => x.ID) _ t ht ?_⟩
      intro y hy
      simpa using (rangeFirst_eq_none _ _).mp hf y hy
  · unfold RemoveCustomTemplate
    cases hf : rangeFirst (fun x : CustomTemplate => x.ID == id) c.CustomTemplates with
    | some i => exact ⟨hr, nodup_map_spliceOut (fun x : CustomTemplate => x.ID) _ i ht⟩
    | none => exact ⟨hr, ht⟩
  · unfold SetTemplateCommit
    cases hf : rangeFirst (fun x : CustomTemplate => x.ID == id) c.CustomTemplates with
    | some i =>
      refine ⟨hr, ?_⟩
      show ((assignCommit c.CustomTemplates i commit).map (fun t => t.ID)).Nodup
      rw [map_ID_assignCommit]
      exact ht
    | none => exact ⟨hr, ht⟩

/-- Witness of C13 on the sample configuration, whose IDs are distinct. -/
theorem C13_unique_ids_invariant_witness :
    uniqueIDs sampleConfig ∧
    uniqueIDs (AddRegistry sampleConfig (sampleRegistry "team")).1 ∧
    uniqueIDs (AddRegistry sampleConfig (sampleRegistry "extra")).1 ∧
    uniqueIDs (RemoveRegistry sampleConfig "team").1 ∧
    uniqueIDs (AddCustomTemplate sampleConfig (sampleCustom "web")).1 ∧
    uniqueIDs (RemoveCustomTemplate sampleConfig "svc").1 ∧
    uniqueIDs (SetTemplateCommit sampleConfig "cli" (some "abc123")).1 :=
  have h : uniqueIDs sampleConfig := ⟨by decide, by decide⟩
  ⟨h, (C13_unique_ids_invariant sampleConfig h).1 (sampleRegistry "team"),
   (C13_unique_ids_invariant sampleConfig h).1 (sampleRegistry "extra"),
   (C13_unique_ids_invariant sampleConfig h).2.1 "team",
   (C13_unique_ids_invariant sampleConfig h).2.2.1 (sampleCustom "web"),
   (C13_unique_ids_invariant sampleConfig h).2.2.2.1 "svc",
   (C13_unique_ids_invariant sampleConfig h).2.2.2.2 "cli" (some "abc123")⟩

/-! ## Custom template conversion: the theorems -/

/-- Claim C20: `GetCustomTemplates` returns a sequence of the same length and
order as `CustomTemplates` whose i-th Template has the ID, Name, Description,
Category, Repo, Path, Branch, Commit and Tags of the i-th CustomTemplate and
empty Prompts, Rename and Replace; two configurations with the same
`CustomTemplates` give the same result. -/
theorem C20_get_custom_templates (cfg : Config) :
    (GetCustomTemplates cfg).length = cfg.CustomTemplates.length ∧
    (∀ (i : Nat) (ct : CustomTemplate), cfg.CustomTemplates[i]? = some ct →
      ∃ t, (GetCustomTemplates cfg)[i]? = some t ∧
        t.ID = ct.ID ∧ t.Name = ct.Name ∧ t.Description = ct.Description ∧
        t.Category = ct.Category ∧ t.Repo = ct.Repo ∧ t.Path = ct.Path ∧
        t.Branch = ct.Branch ∧ t.Commit = ct.Commit ∧ t.Tags = ct.Tags ∧
        t.Prompts = [] ∧ t.Rename = [] ∧ t.Replace = []) ∧
    (∀ cfg1 : Config, cfg1.CustomTemplates = cfg.CustomTemplates →
      GetCustomTemplates cfg1 = GetCustomTemplates cfg) := by
  have hmap : ∀ c : Config, GetCustomTemplates c = c.CustomTemplates.map (fun ct =>
      ({ ID := ct.ID, Name := ct.Name, Description := ct.Description,
         Category := ct.Category, Prompts := [], Rename := [], Replace := [],
         Repo := ct.Repo, Path := ct.Path, Branch := ct.Branch, Commit := ct.Commit,
         Tags := ct.Tags } : Template)) := by
    intro c
    unfold GetCustomTemplates
    rw [foldl_append_singleton]
    simp
  refine ⟨by rw [hmap]; simp, ?_, ?_⟩
  · intro i ct hct
    refine ⟨_, by rw [hmap, List.getElem?_map, hct]; rfl, ?_⟩
    simp
  · intro cfg1 h1
    rw [hmap, hmap, h1]

/-- Witness of C20 on the sample configuration: its second custom template. -/
theorem C20_get_custom_templates_witness :
    ∃ t, (GetCustomTemplates sampleConfig)[1]? = some t ∧
      t.ID = "cli" ∧ t.Name = "Service" ∧ t.Description = "" ∧
      t.Category = "" ∧ t.Repo = "https://example.com/tpl" ∧ t.Path = "" ∧
      t.Branch = "main" ∧ t.Commit = none ∧ t.Tags = [] ∧
      t.Prompts = [] ∧ t.Rename = [] ∧ t.Replace = [] :=
  (C20_get_custom_templates sampleConfig).2.1 1 (sampleCustom "cli") rfl

/-! ## The init command: the theorems -/

/-- Claim C14: in the init command the catalog built from three successfully
obtained lists is their concatenation, registry-sourced, then custom, then
locally discovered, with no entry dropped or deduplicated; and when the ID
handed back by the form occurs in the catalog, the command resolves to the
first catalog entry with that ID, which is a registry-sourced entry whenever
one of them has the ID. -/
theorem C14_init_catalog :
    (∀ registryTemplates customTemplates localTemplates : List Template,
      initCatalog (registryTemplates, none) customTemplates (.ok localTemplates)
        = registryTemplates ++ customTemplates ++ localTemplates) ∧
    (∀ (FetchRegistry : Fetcher) (decode : String → Except String Template)
        (localRoot : Except String FSNode)
        (form : List (String × String) → Except String FormValues) (cfg : Config)
        (localTemplates : List Template) (values : FormValues),
      DiscoverLocalTemplates decode localRoot "templates" = .ok localTemplates →
      form (((FetchAllRegistries FetchRegistry cfg).templates ++ GetCustomTemplates cfg
          ++ localTemplates).map
            (fun tpl => (tpl.Name ++ " (" ++ tpl.Category ++ ")", tpl.ID))) = .ok values →
      (∃ e ∈ (FetchAllRegistries FetchRegistry cfg).templates ++ GetCustomTemplates cfg
          ++ localTemplates, e.ID = values.selectedTemplateID) →
      ∃ pre t post,
        (FetchAllRegistries FetchRegistry cfg).templates ++ GetCustomTemplates cfg
          ++ localTemplates = pre ++ t :: post ∧
        t.ID = values.selectedTemplateID ∧
        (∀ y ∈ pre, y.ID ≠ values.selectedTemplateID) ∧
        initCmd FetchRegistry decode localRoot form cfg =
          .selected ((FetchAllRegistries FetchRegistry cfg).templates ++ GetCustomTemplates cfg
            ++ localTemplates) values t ∧
        ((∃ r ∈ (FetchAllRegistries FetchRegistry cfg).templates,
            r.ID = values.selectedTemplateID) →
          t ∈ (FetchAllRegistries FetchRegistry cfg).templates)) := by
  constructor
  · intro r c l
    simp [initCatalog]
  · intro F decode localRoot form cfg locals values hlocal hform hex
    obtain ⟨e, he, hid⟩ := hex
    have herr : (FetchAllRegistries F cfg).err = none := rfl
    have hcat : initCatalog ((FetchAllRegistries F cfg).templates, (FetchAllRegistries F cfg).err)
        (GetCustomTemplates cfg) (DiscoverLocalTemplates decode localRoot "templates")
        = (FetchAllRegistries F cfg).templates ++ GetCustomTemplates cfg ++ locals := by
      rw [hlocal, herr]
      simp [initCatalog]
    have hsome : ∃ t, ((FetchAllRegistries F cfg).templates ++ GetCustomTemplates cfg
        ++ locals).find? (fun tpl => tpl.ID == values.selectedTemplateID) = some t := by
      cases hf : ((FetchAllRegistries F cfg).templates ++ GetCustomTemplates cfg
        ++ locals).find? (fun tpl => tpl.ID == values.selectedTemplateID) with
      | some t => exact ⟨t, rfl⟩
      | none =>
        have := List.find?_eq_none.mp hf e he
        simp [hid] at this
    obtain ⟨t, ht⟩ := hsome
    obtain ⟨hpt, pre, post, hsplit, hpre⟩ := List.find?_eq_some.mp ht
    have hne : ((FetchAllRegistries F cfg).templates ++ GetCustomTemplates cfg
        ++ locals).length ≠ 0 := by
      rw [hsplit]; simp
    refine ⟨pre, t, post, hsplit, by simpa using hpt,
      fun y hy => by simpa using hpre y hy, ?_, ?_⟩
    · unfold initCmd
      simp only [hcat, hne, if_false, foldl_append_singleton, List.nil_append, hform, ht]
    · rintro ⟨r, hr, hrid⟩
      rw [List.append_assoc, List.find?_append] at ht
      cases hfr : (FetchAllRegistries F cfg).templates.find?
          (fun tpl => tpl.ID == values.selectedTemplateID) with
      | none =>
        have := List.find?_eq_none.mp hfr r hr
        simp [hrid] at this
      | some t1 =>
        rw [hfr] at ht
        simp only [Option.or_some] at ht
        cases ht
        exact List.mem_of_find?_eq_some hfr

/-- Witness of C14: the registry A offers `go-api` and `web`, the
configuration has a custom template `web`, and `templates` holds the local
template `b`; the form selects `web`, and the registry-sourced `web` is
resolved. -/
theorem C14_init_catalog_witness :
    ∃ pre t post,
      (FetchAllRegistries sampleFetcher sampleInitConfig).templates
          ++ GetCustomTemplates sampleInitConfig
          ++ [{ sampleManifest with Path := "templates/b" }] = pre ++ t :: post ∧
      t.ID = "web" ∧
      (∀ y ∈ pre, y.ID ≠ "web") ∧
      initCmd sampleFetcher sampleDecode (.ok sampleTemplatesDir) sampleForm sampleInitConfig =
        .selected ((FetchAllRegistries sampleFetcher sampleInitConfig).templates
          ++ GetCustomTemplates sampleInitConfig
          ++ [{ sampleManifest with Path := "templates/b" }])
          { selectedTemplateID := "web", projectName := "Foo", authorName := "Ada" } t ∧
      ((∃ r ∈ (FetchAllRegistries sampleFetcher sampleInitConfig).templates, r.ID = "web") →
        t ∈ (FetchAllRegistries sampleFetcher sampleInitConfig).templates) :=
  C14_init_catalog.2 sampleFetcher sampleDecode (.ok sampleTemplatesDir) sampleForm
    sampleInitConfig [{ sampleManifest with Path := "templates/b" }]
    { selectedTemplateID := "web", projectName := "Foo", authorName := "Ada" }
    (by rfl) (by rfl)
    ⟨registryTemplateToTemplate sampleDocument sampleEntryOwn, by decide, rfl⟩

/-! ## The manifest is skipped: the theorems -/

theorem stripManifests_name (node : FSNode) : (stripManifests node).name = node.name := by
  cases node <;> simp [stripManifests, FSNode.name]

theorem createWalk_manifest_file (T : Template) (data : List (String × String))
    (destDir path : String) (rel : List String) (mode : Nat) (content : Except String String)
    (st : MatState) :
    createWalk T data destDir path rel (.file "template.json" mode content) st = st := by
  simp [createWalk]

mutual
theorem createWalk_strip (T : Template) (data : List (String × String)) (destDir : String) :
    ∀ (node : FSNode) (path : String) (rel : List String) (st : MatState),
      st.status = .ok →
      createWalk T data destDir path rel node st
        = createWalk T data destDir path rel (stripManifests node) st
  | .file name mode content, path, rel, st, _ => by simp [stripManifests]
  | .dir name mode readErr entries, path, rel, st, hst => by
    cases readErr with
    | some err => simp [stripManifests, createWalk]
    | none =>
      by_cases hn : (name == "template.json") = true
      · simp only [stripManifests, createWalk, hn, if_true]
        exact createWalkList_strip T data destDir entries path rel st hst
      · simp only [stripManifests, createWalk, hn, if_false]
        cases applyRename T.Rename data name (filepath.Join destDir (relPath rel)) with
        | error status => rfl
        | ok destPath =>
          simp only
          cases st.fs.MkdirAll destPath mode with
          | error err => rfl
          | ok fs1 =>
            exact createWalkList_strip T data destDir entries path rel _ rfl
theorem createWalkList_strip (T : Template) (data : List (String × String))
    (destDir : String) :
    ∀ (nodes : List FSNode) (path : String) (rel : List String) (st : MatState),
      st.status = .ok →
      createWalkList T data destDir path rel nodes st
        = createWalkList T data destDir path rel (stripManifestsList nodes) st
  | [], path, rel, st, _ => by simp [stripManifestsList]
  | node :: rest, path, rel, st, hst => by
    by_cases hm : isManifestFile node = true
    · have hstep : createWalk T data destDir (filepath.Join path node.name)
          (rel ++ [node.name]) node st = st := by
        cases node with
        | file name mode content =>
          have hname : name = "template.json" := by simpa [isManifestFile] using hm
          subst hname
          exact createWalk_manifest_file T data destDir _ _ mode content st
        | dir name mode readErr entries => simp [isManifestFile] at hm
      simp only [createWalkList, stripManifestsList, hm, if_true, hstep, hst]
      exact createWalkList_strip T data destDir rest path rel st hst
    · have h1 := createWalk_strip T data destDir node (filepath.Join path node.name)
        (rel ++ [node.name]) st hst
      simp only [createWalkList, stripManifestsList, hm, Bool.false_eq_true, if_false,
        stripManifests_name, ← h1]
      cases hs : (createWalk T data destDir (filepath.Join path node.name)
          (rel ++ [node.name]) node st).status with
      | ok =>
        simp only
        exact createWalkList_strip T data destDir rest path rel _ hs
      | failed msg => rfl
      | unmodelled => rfl
end

/-- The manifest file is never copied: the step for a file named exactly
`template.json` leaves the destination and the list of calls as they are,
whatever the rename rules, the variables, the depth and the content; the step
for a directory of that name makes no call of its own and goes on to its
entries; and the whole run is the same as the run on the tree from which every
manifest file, at every depth, has been removed. -/
theorem manifest_file_never_copied (selectedTemplate : Template) :
    (∀ (templateData : List (String × String)) (destDir path : String) (rel : List String)
        (mode : Nat) (content : Except String String) (st : MatState),
      createWalk selectedTemplate templateData destDir path rel
        (.file "template.json" mode content) st = st) ∧
    (∀ (templateData : List (String × String)) (destDir path : String) (rel : List String)
        (mode : Nat) (entries : List FSNode) (st : MatState),
      createWalk selectedTemplate templateData destDir path rel
        (.dir "template.json" mode none entries) st =
      createWalkList selectedTemplate templateData destDir path rel entries st) ∧
    (∀ (tree : FSNode) (projectName authorName : String) (fs : DestFS),
      materialize selectedTemplate (.ok tree) projectName authorName fs =
      materialize selectedTemplate (.ok (stripManifests tree)) projectName authorName fs) := by
  refine ⟨fun data destDir path rel mode content st =>
      createWalk_manifest_file selectedTemplate data destDir path rel mode content st,
    fun data destDir path rel mode entries st => by simp [createWalk], ?_⟩
  intro tree projectName authorName fs
  simp only [materialize]
  cases fs.MkdirAll projectName 0o755 with
  | error err => rfl
  | ok fs1 =>
    simp only
    rw [createWalk_strip selectedTemplate _ projectName tree _ [] _ rfl]

/-- An example: with manifest files at two depths and a rename rule for the
name `template.json`, the calls made are those for the directories and for
`main.go` only. -/
theorem manifest_skipped_example :
    materialize manifestRuleTemplate (.ok deepManifestTree) "app" "Ada" [] =
      { fs := [("app/cmd/main.go", .file "package main" 0o644), ("app/cmd", .dir 0o755),
               ("app", .dir 0o755)],
        ops := [.mkdirAll "app" 0o755, .mkdirAll "app" 0o755, .mkdirAll "app/cmd" 0o755,
                .writeFile "app/cmd/main.go" "package main" 0o644],
        status := .ok } := by
  decide

/-- Claim C17, the code at the failing input: the tree holds a directory
named `template.json` with a directory `sub` and a file in it. The callback
returns nil for the directory and the walk goes on into it, so the step for
`sub` creates `app/template.json` on its way to `app/template.json/sub`, and
the file is written below it: the destination has an entry for the source
entry named `template.json`. With a file directly in that directory the run
fails, since `app/template.json` does not exist when the file is written. -/
theorem C17_manifest_named_directory :
    materialize sampleTemplate (.ok manifestNamedDirTree) "app" "Ada" [] =
      { fs := [("app/template.json/sub/a.txt", .file "notes" 0o644),
               ("app/template.json/sub", .dir 0o755), ("app/template.json", .dir 0o755),
               ("app", .dir 0o755)],
        ops := [.mkdirAll "app" 0o755, .mkdirAll "app" 0o755,
                .mkdirAll "app/template.json/sub" 0o755,
                .writeFile "app/template.json/sub/a.txt" "notes" 0o644],
        status := .ok } ∧
    (materialize sampleTemplate (.ok manifestNamedDirTree) "app" "Ada" []).fs.stat
      "app/template.json" = some (.dir 0o755) ∧
    (materialize sampleTemplate (.ok manifestNamedDirFlatTree) "app" "Ada" []).status =
      .failed ("Failed to create project: " ++
        "open app/template.json/a.txt: no such file or directory") := by
  decide

/-! ## Literal text is copied: the theorems -/

theorem parseFrom_text_no_delim :
    ∀ (chars buf : List Char) (nodes : List TplNode), ¬ ['{', '{'] <:+: chars →
      parseFrom (.text buf) nodes chars = .ok (flushText (chars.reverse ++ buf) nodes).reverse
  | [], buf, nodes, _ => by simp [parseFrom]
  | [c], buf, nodes, _ => by
    unfold parseFrom
    split
    · simp_all
    · simp_all
    · simp_all [parseFrom]
    all_goals simp_all
  | c :: d :: rest, buf, nodes, h => by
    have hrest : ¬ ['{', '{'] <:+: (d :: rest) := by
      intro hc
      exact h (List.infix_cons hc)
    have hcd : ¬ (c = '{' ∧ d = '{') := by
      rintro ⟨rfl, rfl⟩
      exact h ⟨[], rest, by simp⟩
    have ih := parseFrom_text_no_delim (d :: rest) (c :: buf) nodes hrest
    unfold parseFrom
    split
    · simp_all
    · simp_all
    · simp_all
    all_goals simp_all

theorem templateParse_no_delim (text : String) (h : ¬ ['{', '{'] <:+: text.data) :
    templateParse text = .ok (if text.data = [] then [] else [TplNode.text text.data]) := by
  have := parseFrom_text_no_delim text.data [] [] h
  simp only [templateParse, this, flushText, List.append_nil, List.reverse_eq_nil_iff,
    List.reverse_reverse]
  split <;> simp

theorem render_no_delim (text : String) (templateData : List (String × String))
    (h : ¬ ['{', '{'] <:+: text.data) : render text templateData = .ok text := by
  rw [render, templateParse_no_delim text h]
  by_cases he : text.data = []
  · have : text = "" := by
      cases text
      simp_all
    simp [he, templateExecute, this]
  · simp [he, templateExecute, execNode]

theorem writeFile_stat (fs fs1 : DestFS) (path content : String) (perm : Nat)
    (h : fs.WriteFile path content perm = .ok fs1) :
    ∃ perm1, fs1.stat (filepath.Clean path) = some (.file content perm1) := by
  unfold DestFS.WriteFile at h
  split at h
  · cases h
  · simp only at h
    split at h
    · split at h
      · cases h
      · next perm0 hstat =>
        cases h
        refine ⟨perm0, ?_⟩
        have hnot : alwaysDir (filepath.Clean path) = false := by
          cases ha : alwaysDir (filepath.Clean path) with
          | false => rfl
          | true => simp [DestFS.stat, ha] at hstat
        simp [DestFS.stat, hnot]
      · next hstat =>
        cases h
        refine ⟨perm, ?_⟩
        have hnot : alwaysDir (filepath.Clean path) = false := by
          cases ha : alwaysDir (filepath.Clean path) with
          | false => rfl
          | true => simp [DestFS.stat, ha] at hstat
        simp [DestFS.stat, hnot]
    · cases h
    · cases h

/-- Claim C18: for a source file whose content has no `{{` and every variable
binding, rendering succeeds with the content itself as output; the step for
the file calls `os.WriteFile` with exactly the content of the source file, and
when that call succeeds the destination holds a file with that content at the
destination path. -/
theorem C18_literal_file_copied (text : String) (templateData : List (String × String))
    (h : ¬ ['{', '{'] <:+: text.data) :
    render text templateData = .ok text ∧
    (∀ (selectedTemplate : Template) (destDir path : String) (rel : List String)
        (name : String) (mode : Nat) (st : MatState) (destPath : String),
      name ≠ "template.json" →
      applyRename selectedTemplate.Rename templateData name
        (filepath.Join destDir (relPath rel)) = .ok destPath →
      createWalk selectedTemplate templateData destDir path rel
          (.file name mode (.ok text)) st =
        (match st.fs.WriteFile destPath text mode with
          | .error err =>
            { st with ops := st.ops ++ [.writeFile destPath text mode], status := .failed err }
          | .ok fs1 =>
            { fs := fs1, ops := st.ops ++ [.writeFile destPath text mode], status := .ok })) ∧
    (∀ (fs fs1 : DestFS) (destPath : String) (mode : Nat),
      fs.WriteFile destPath text mode = .ok fs1 →
      ∃ perm, fs1.stat (filepath.Clean destPath) = some (.file text perm)) := by
  have hr := render_no_delim text templateData h
  refine ⟨hr, ?_, fun fs fs1 destPath mode hw => writeFile_stat fs fs1 destPath text mode hw⟩
  intro T destDir path rel name mode st destPath hname hren
  have hn : (name == "template.json") = false := by simpa using hname
  simp only [createWalk, hn, Bool.false_eq_true, if_false, hren, hr]

/-- Witness of C18: a `README.md` with single braces and no placeholder is written unchanged. -/
theorem C18_literal_file_copied_witness :
    render "func main() { run() }" [("ProjectName", "Foo"), ("AuthorName", "Ada")]
      = .ok "func main() { run() }" ∧
    (materialize sampleTemplate
        (.ok (readmeTree "go" 0o755 0o644 "func main() { run() }")) "Foo" "Ada" []).fs.stat
        "Foo/README.md" = some (.file "func main() { run() }" 0o644) :=
  ⟨(C18_literal_file_copied "func main() { run() }"
      [("ProjectName", "Foo"), ("AuthorName", "Ada")] (by decide)).1, by decide⟩

/-- An example of a field that is no key of the template data: `Execute`
prints `<no value>` for it, in a file content and in a rename pattern. -/
theorem render_missing_key_example :
    render "v{{.Version}}" [("ProjectName", "app"), ("AuthorName", "Ada")]
      = .ok "v<no value>" ∧
    applyRename [("main.go", "{{.Version}}.go")] [("ProjectName", "app"), ("AuthorName", "Ada")]
        "main.go" (filepath.Join "proj" (relPath ["cmd", "main.go"]))
      = .ok "proj/cmd/<no value>.go" := by
  refine ⟨by decide, by rfl⟩

/-! ## Renamed directories and the walked directory: the theorems -/

/-- Claim C15, the code at the failing input: with the rule `src` to
`{{.ProjectName}}` and ProjectName `app`, the run on a tree with
`src/pkg/a.go` succeeds, creates the renamed directory `app/app` and leaves it
empty, and writes the file under the original name at `app/src/pkg/a.go`; on a
tree with `src/main.go` the run fails, since `app/src` does not exist when the
file is written. -/
theorem C15_renamed_directory_descendants :
    (materialize renameDirTemplate (.ok nestedSrcTree) "app" "Ada" []).status = .ok ∧
    (materialize renameDirTemplate (.ok nestedSrcTree) "app" "Ada" []).ops =
      [.mkdirAll "app" 0o755, .mkdirAll "app" 0o755, .mkdirAll "app/app" 0o755,
       .mkdirAll "app/src/pkg" 0o755, .writeFile "app/src/pkg/a.go" "package pkg" 0o644] ∧
    (materialize renameDirTemplate (.ok nestedSrcTree) "app" "Ada" []).fs.stat
      "app/app/pkg/a.go" = none ∧
    (materialize renameDirTemplate (.ok nestedSrcTree) "app" "Ada" []).fs.stat
      "app/src/pkg/a.go" = some (.file "package pkg" 0o644) ∧
    (materialize renameDirTemplate (.ok flatSrcTree) "app" "Ada" []).status =
      .failed ("Failed to create project: " ++
        "open app/src/main.go: no such file or directory") ∧
    (materialize renameDirTemplate (.ok flatSrcTree) "app" "Ada" []).fs.stat
      "app/app/main.go" = none := by
  decide

/-- Claim C16, the code at the failing input: the manifest in
`templates/go-service` declares the ID `svc`; discovery records
`templates/go-service` as its Path, and the create command for `svc` walks
`templates/svc`, which does not exist, so it fails and copies nothing. -/
theorem C16_walked_directory :
    DiscoverLocalTemplates serviceDecode (serviceLstat "templates") "templates" =
      .ok [{ serviceManifest with Path := "templates/go-service" }] ∧
    (createCmd serviceLstat serviceDecode "app" "Ada" "svc" []).status =
      .failed ("Failed to create project: " ++
        "lstat templates/svc: no such file or directory") ∧
    (createCmd serviceLstat serviceDecode "app" "Ada" "svc" []).ops =
      [.mkdirAll "app" 0o755] := by
  refine ⟨by rfl, by decide, by decide⟩

/-! ## Paths made of file names -/

theorem isComp_of_isFileName (s : String) (h : isFileName s = true) : isComp s.data := by
  cases s with
  | mk data =>
    simp only [isFileName, Bool.and_eq_true, decide_eq_true_eq, Bool.not_eq_true',
      List.contains_eq_any_beq, ne_eq] at h
    obtain ⟨⟨⟨h1, h2⟩, h3⟩, h4⟩ := h
    refine ⟨?_, ?_, ?_, ?_⟩
    · intro hd; apply h1; simp_all
    · intro hm
      simp only [List.any_eq_false, beq_iff_eq] at h2
      exact h2 '/' hm rfl
    · intro hd; apply h3; simp_all
    · intro hd; apply h4; simp_all

theorem split_no_slash (w : List Char) (h : '/' ∉ w) : filepath.split w = [w] := by
  induction w with
  | nil => rfl
  | cons c cs ih =>
    have hc : c ≠ '/' := fun hc => h (by simp [hc])
    have hcs : '/' ∉ cs := fun hm => h (by simp [hm])
    simp [filepath.split, hc, ih hcs]

theorem split_append_slash (w rest : List Char) (h : '/' ∉ w) :
    filepath.split (w ++ '/' :: rest) = w :: filepath.split rest := by
  induction w with
  | nil => simp [filepath.split]
  | cons c cs ih =>
    have hc : c ≠ '/' := fun hc => h (by simp [hc])
    have hcs : '/' ∉ cs := fun hm => h (by simp [hm])
    simp [filepath.split, hc, ih hcs]

theorem intercalate_eq_joinComps (cs : List (List Char)) :
    List.intercalate ['/'] cs = joinComps cs := by
  induction cs with
  | nil => rfl
  | cons w rest ih =>
    cases rest with
    | nil => simp [List.intercalate, joinComps]
    | cons v rest =>
      simp only [joinComps, ← ih]
      simp [List.intercalate]

theorem split_joinComps (cs : List (List Char)) (hne : cs ≠ []) (h : ∀ w ∈ cs, '/' ∉ w) :
    filepath.split (joinComps cs) = cs := by
  induction cs with
  | nil => exact absurd rfl hne
  | cons w rest ih =>
    cases rest with
    | nil => simpa [joinComps] using split_no_slash w (h w (by simp))
    | cons v rest =>
      have := ih (by simp) (fun u hu => h u (by simp [hu]))
      simp [joinComps, split_append_slash _ _ (h w (by simp)), this]

theorem foldl_cleanStep_comps (rooted : Bool) (cs acc : List (List Char))
    (h : ∀ w ∈ cs, isComp w) :
    cs.foldl (filepath.cleanStep rooted) acc = cs.reverse ++ acc := by
  induction cs generalizing acc with
  | nil => rfl
  | cons w rest ih =>
    obtain ⟨h1, _, h3, h4⟩ := h w (by simp)
    have hstep : filepath.cleanStep rooted acc w = w :: acc := by
      simp [filepath.cleanStep, h1, h3, h4]
    simp [List.foldl_cons, hstep, ih (w :: acc) (fun u hu => h u (by simp [hu]))]

theorem joinComps_append_single (cs : List (List Char)) (w : List Char) (hne : cs ≠ []) :
    joinComps (cs ++ [w]) = joinComps cs ++ '/' :: w := by
  induction cs with
  | nil => exact absurd rfl hne
  | cons v rest ih =>
    cases rest with
    | nil => simp [joinComps]
    | cons u rest =>
      have := ih (by simp)
      simp only [List.cons_append] at this ⊢
      simp [joinComps, this]

theorem joinComps_append (as bs : List (List Char)) (ha : as ≠ []) (hb : bs ≠ []) :
    joinComps (as ++ bs) = joinComps as ++ '/' :: joinComps bs := by
  induction as with
  | nil => exact absurd rfl ha
  | cons v rest ih =>
    cases rest with
    | nil =>
      cases bs with
      | nil => exact absurd rfl hb
      | cons b bs => simp [joinComps]
    | cons u rest =>
      have := ih (by simp)
      simp only [List.cons_append] at this ⊢
      simp [joinComps, this]

theorem joinComps_ne_nil (cs : List (List Char)) (hne : cs ≠ []) (h : ∀ w ∈ cs, isComp w) :
    ∃ c rest, joinComps cs = c :: rest ∧ c ≠ '/' := by
  cases cs with
  | nil => exact absurd rfl hne
  | cons w rest =>
    obtain ⟨h1, h2, _, _⟩ := h w (by simp)
    cases w with
    | nil => exact absurd rfl h1
    | cons c w' =>
      have hc : c ≠ '/' := fun hc => h2 (by simp [hc])
      cases rest with
      | nil => exact ⟨c, w', rfl, hc⟩
      | cons v rest => exact ⟨c, _, rfl, hc⟩

theorem Clean_relative (l : List Char) (out : List (List Char))
    (hl : ∃ c rest, l = c :: rest ∧ c ≠ '/')
    (hout : (filepath.split l).foldl (filepath.cleanStep false) [] = out.reverse)
    (hne : out ≠ []) :
    filepath.Clean (String.mk l) = String.mk (joinComps out) := by
  obtain ⟨c, rest, rfl, hc⟩ := hl
  simp only [filepath.Clean, decide_eq_true_eq, hc, Bool.false_eq_true, if_false,
    intercalate_eq_joinComps]
  simp only [hc, decide_False, hout, List.reverse_reverse, List.reverse_eq_nil_iff, hne,
    if_false]

theorem dropWhile_append_stop {α : Type} (p : α → Bool) (l rest : List α) (a : α)
    (hl : ∀ x ∈ l, p x = true) (ha : p a = false) :
    (l ++ a :: rest).dropWhile p = a :: rest := by
  induction l with
  | nil => simp [List.dropWhile, ha]
  | cons x xs ih =>
    simp [List.dropWhile, hl x (by simp), ih (fun y hy => hl y (by simp [hy]))]

theorem dirPrefix_no_slash (w : List Char) (h : '/' ∉ w) : filepath.dirPrefix w = [] := by
  unfold filepath.dirPrefix
  have : w.reverse.dropWhile (fun c => decide (c ≠ '/')) = [] := by
    rw [List.dropWhile_eq_nil_iff]
    intro x hx
    have hx' : x ∈ w := List.mem_reverse.mp hx
    simpa using fun hc : x = '/' => h (hc ▸ hx')
  rw [this]; rfl

theorem dirPrefix_append_slash (p w : List Char) (h : '/' ∉ w) :
    filepath.dirPrefix (p ++ '/' :: w) = p ++ ['/'] := by
  unfold filepath.dirPrefix
  have hrev : (p ++ '/' :: w).reverse = w.reverse ++ '/' :: p.reverse := by simp
  rw [hrev, dropWhile_append_stop _ _ _ _ _ (by simp)]
  · simp
  · intro x hx
    have hx' : x ∈ w := List.mem_reverse.mp hx
    simpa using fun hc : x = '/' => h (hc ▸ hx')

theorem split_joinComps_append (cs : List (List Char)) (rest : List Char) (hne : cs ≠ [])
    (h : ∀ w ∈ cs, '/' ∉ w) :
    filepath.split (joinComps cs ++ '/' :: rest) = cs ++ filepath.split rest := by
  induction cs with
  | nil => exact absurd rfl hne
  | cons w ws ih =>
    cases ws with
    | nil => simpa [joinComps] using split_append_slash w rest (h w (by simp))
    | cons v ws =>
      have := ih (by simp) (fun u hu => h u (by simp [hu]))
      simp only [joinComps, List.append_assoc, List.cons_append]
      rw [split_append_slash _ _ (h w (by simp)), this]
      simp

theorem joinComps_eq_head_tail (w : List Char) (rest : List (List Char)) :
    joinComps (w :: rest) = w ++ (rest.map (fun a => '/' :: a)).flatten := by
  induction rest generalizing w with
  | nil => simp [joinComps]
  | cons v rest ih => simp [joinComps, ih v]

theorem intercalate_go_data (acc : String) (l : List String) :
    (String.intercalate.go acc "/" l).data
      = acc.data ++ (l.map (fun a => '/' :: a.data)).flatten := by
  induction l generalizing acc with
  | nil => simp [String.intercalate.go]
  | cons a as ih =>
    simp [String.intercalate.go, ih, String.data_append]

theorem intercalate_data (l : List String) :
    (String.intercalate "/" l).data = joinComps (l.map String.data) := by
  cases l with
  | nil => rfl
  | cons a as =>
    simp [String.intercalate, intercalate_go_data, joinComps_eq_head_tail, List.map_map,
      Function.comp_def]

theorem intercalate_eq_mk (l : List String) :
    String.intercalate "/" l = String.mk (joinComps (l.map String.data)) := by
  rw [← intercalate_data]

theorem Join_chars (a : List Char) (b : String) (ha : a ≠ []) :
    filepath.Join (String.mk a) b
      = filepath.Clean (String.mk (a ++ '/' :: b.data)) := by
  have hne : String.mk a ≠ "" := by
    intro h
    apply ha
    have := congrArg String.data h
    simpa using this
  have happ : String.mk a ++ "/" ++ b = String.mk (a ++ '/' :: b.data) := by
    apply String.ext
    simp [String.data_append]
  simp [filepath.Join, hne, happ]

/-- The cleaned path with the given file names as components is its own
cleaning. -/
theorem Clean_names (comps : List String) (hne : comps ≠ [])
    (h : ∀ c ∈ comps, isFileName c = true) :
    filepath.Clean (String.intercalate "/" comps) = String.intercalate "/" comps := by
  have hcomp : ∀ w ∈ comps.map String.data, isComp w := by
    intro w hw
    obtain ⟨c, hc, rfl⟩ := List.mem_map.mp hw
    exact isComp_of_isFileName c (h c hc)
  have hne' : comps.map String.data ≠ [] := by simpa using hne
  rw [intercalate_eq_mk]
  refine Clean_relative _ _ (joinComps_ne_nil _ hne' hcomp) ?_ hne'
  rw [split_joinComps _ hne' (fun w hw => (hcomp w hw).2.1), foldl_cleanStep_comps _ _ _ hcomp]
  simp

theorem isComp_map_data (comps : List String) (h : ∀ c ∈ comps, isFileName c = true) :
    ∀ w ∈ comps.map String.data, isComp w := by
  intro w hw
  obtain ⟨c, hc, rfl⟩ := List.mem_map.mp hw
  exact isComp_of_isFileName c (h c hc)

/-- Joining a path of file names with the relative path of an entry gives the
path whose components are those of both, in order. -/
theorem Join_names_relPath (destComps rel : List String) (hne : destComps ≠ [])
    (hd : ∀ c ∈ destComps, isFileName c = true) (hr : ∀ c ∈ rel, isFileName c = true) :
    filepath.Join (String.intercalate "/" destComps) (relPath rel)
      = String.intercalate "/" (destComps ++ rel) := by
  have hdc := isComp_map_data destComps hd
  have hne' : destComps.map String.data ≠ [] := by simpa using hne
  have hja : joinComps (destComps.map String.data) ≠ [] := by
    obtain ⟨c, rest, hc, _⟩ := joinComps_ne_nil _ hne' hdc
    simp [hc]
  by_cases hrel : rel = []
  · subst hrel
    have hdot : relPath [] = String.mk ['.'] := rfl
    rw [List.append_nil, hdot, intercalate_eq_mk destComps, Join_chars _ _ hja]
    refine Clean_relative _ _ ?_ ?_ hne'
    · obtain ⟨c, rest, hc, hcs⟩ := joinComps_ne_nil _ hne' hdc
      exact ⟨c, rest ++ '/' :: ['.'], by simp [hc], hcs⟩
    · rw [split_joinComps_append _ _ hne' (fun w hw => (hdc w hw).2.1),
        List.foldl_append, foldl_cleanStep_comps _ _ _ hdc]
      simp [filepath.split, filepath.cleanStep]
  · have hall : ∀ c ∈ destComps ++ rel, isFileName c = true := by
      intro c hc
      rcases List.mem_append.mp hc with h1 | h1
      · exact hd c h1
      · exact hr c h1
    have hrne : rel.map String.data ≠ [] := by simpa using hrel
    have hrp : relPath rel = String.mk (joinComps (rel.map String.data)) := by
      simp only [relPath, hrel, if_false]
      exact intercalate_eq_mk rel
    rw [hrp, intercalate_eq_mk destComps, Join_chars _ _ hja]
    simp only
    rw [← joinComps_append _ _ hne' hrne, ← List.map_append, ← intercalate_eq_mk]
    exact Clean_names _ (by simp [hne]) hall

/-- Replacing the last component: for a path of file names, `Join` of its
`Dir` with a file name is the path with the last component replaced by that
name. -/
theorem Join_Dir_names (comps : List String) (newName : String) (hne : comps ≠ [])
    (h : ∀ c ∈ comps, isFileName c = true) (hn : isFileName newName = true) :
    filepath.Join (filepath.Dir (String.intercalate "/" comps)) newName
      = String.intercalate "/" (comps.dropLast ++ [newName]) := by
  obtain ⟨init, last, rfl⟩ : ∃ init last, comps = init ++ [last] :=
    ⟨comps.dropLast, comps.getLast hne, (List.dropLast_append_getLast hne).symm⟩
  have hlast := isComp_of_isFileName last (h last (by simp))
  have hnew := isComp_of_isFileName newName hn
  have hinit : ∀ c ∈ init, isFileName c = true := fun c hc => h c (by simp [hc])
  have hic := isComp_map_data init hinit
  rw [List.dropLast_concat]
  by_cases hi : init = []
  · subst hi
    have hdir : filepath.Dir (String.intercalate "/" ([] ++ [last])) = String.mk ['.'] := by
      simp only [List.nil_append, filepath.Dir, intercalate_data, List.map_cons, List.map_nil,
        joinComps, dirPrefix_no_slash _ hlast.2.1]
      rfl
    rw [hdir, Join_chars _ _ (by simp)]
    have : String.intercalate "/" ([] ++ [newName])
        = String.mk (joinComps [newName.data]) := by
      rw [intercalate_eq_mk]; rfl
    rw [this]
    refine Clean_relative _ _ ⟨'.', _, rfl, by decide⟩ ?_ (by simp)
    have hs : filepath.split (['.'] ++ '/' :: newName.data) = [['.'], newName.data] := by
      have := split_append_slash ['.'] newName.data (by simp)
      simpa [split_no_slash _ hnew.2.1] using this
    rw [hs]
    simp [filepath.cleanStep, hnew.1, hnew.2.2.1, hnew.2.2.2]
  · have hine : init.map String.data ≠ [] := by simpa using hi
    have hji : joinComps (init.map String.data) ≠ [] := by
      obtain ⟨c, rest, hc, _⟩ := joinComps_ne_nil _ hine hic
      simp [hc]
    have hdir : filepath.Dir (String.intercalate "/" (init ++ [last]))
        = String.mk (joinComps (init.map String.data)) := by
      simp only [filepath.Dir, intercalate_data, List.map_append, List.map_cons, List.map_nil,
        joinComps_append_single _ _ hine, dirPrefix_append_slash _ _ hlast.2.1]
      refine Clean_relative _ _ ?_ ?_ hine
      · obtain ⟨c, rest, hc, hcs⟩ := joinComps_ne_nil _ hine hic
        exact ⟨c, rest ++ ['/'], by simp [hc], hcs⟩
      · rw [split_joinComps_append _ _ hine (fun w hw => (hic w hw).2.1),
          List.foldl_append, foldl_cleanStep_comps _ _ _ hic]
        simp [filepath.split, filepath.cleanStep]
    rw [hdir, Join_chars _ _ hji, ← joinComps_append_single _ _ hine]
    have hall : ∀ c ∈ init ++ [newName], isFileName c = true := by
      intro c hc
      rcases List.mem_append.mp hc with h1 | h1
      · exact hinit c h1
      · have : c = newName := by simpa using h1
        rw [this]; exact hn
    have := Clean_names (init ++ [newName]) (by simp) hall
    rw [intercalate_eq_mk (init ++ [newName])] at this ⊢
    simpa using this

/-! ## The destination path: the theorems -/

/-- Claim C19: for an entry other than the manifest, with base name `name`
and relative path `rel`: when no key of the rename rules equals the name
exactly, the destination path is `destDir` joined with the relative path,
whatever else the keys are; when a key equals it, the destination path is the
`Dir` of that path joined with the rendering of the rule; the step for the
entry makes its call at this path; and for a `destDir` and a relative path made
of file names the first path has the components of both in order, and the
second has the same components with the last one replaced by the rendering. -/
theorem C19_destination_path (selectedTemplate : Template)
    (templateData : List (String × String)) (destDir : String) (rel : List String)
    (name : String) :
    ((∀ kv ∈ selectedTemplate.Rename, kv.1 ≠ name) →
      applyRename selectedTemplate.Rename templateData name
        (filepath.Join destDir (relPath rel)) = .ok (filepath.Join destDir (relPath rel))) ∧
    (∀ pat newName : String, (selectedTemplate.Rename.map Prod.fst).Nodup →
      (name, pat) ∈ selectedTemplate.Rename → render pat templateData = .ok newName →
      applyRename selectedTemplate.Rename templateData name
        (filepath.Join destDir (relPath rel))
        = .ok (filepath.Join (filepath.Dir (filepath.Join destDir (relPath rel))) newName)) ∧
    (∀ (path : String) (mode : Nat) (text out : String) (st : MatState) (destPath : String),
      name ≠ "template.json" →
      applyRename selectedTemplate.Rename templateData name
        (filepath.Join destDir (relPath rel)) = .ok destPath →
      render text templateData = .ok out →
      createWalk selectedTemplate templateData destDir path rel
          (.file name mode (.ok text)) st =
        (match st.fs.WriteFile destPath out mode with
          | .error err =>
            { st with ops := st.ops ++ [.writeFile destPath out mode], status := .failed err }
          | .ok fs1 =>
            { fs := fs1, ops := st.ops ++ [.writeFile destPath out mode], status := .ok })) ∧
    (∀ (path : String) (mode : Nat) (entries : List FSNode) (st : MatState)
        (destPath : String),
      name ≠ "template.json" →
      applyRename selectedTemplate.Rename templateData name
        (filepath.Join destDir (relPath rel)) = .ok destPath →
      createWalk selectedTemplate templateData destDir path rel
          (.dir name mode none entries) st =
        (match st.fs.MkdirAll destPath mode with
          | .error err =>
            { st with ops := st.ops ++ [.mkdirAll destPath mode], status := .failed err }
          | .ok fs1 =>
            createWalkList selectedTemplate templateData destDir path rel entries
              { fs := fs1, ops := st.ops ++ [.mkdirAll destPath mode], status := .ok })) ∧
    (∀ (destComps : List String) (newName : String),
      destDir = String.intercalate "/" destComps → destComps ≠ [] →
      (∀ c ∈ destComps ++ rel, isFileName c = true) →
      filepath.Join destDir (relPath rel) = String.intercalate "/" (destComps ++ rel) ∧
      (isFileName newName = true →
        filepath.Join (filepath.Dir (filepath.Join destDir (relPath rel))) newName
          = String.intercalate "/" ((destComps ++ rel).dropLast ++ [newName]))) := by
  refine ⟨fun h => applyRename_no_rule _ _ _ _ h, ?_, ?_, ?_, ?_⟩
  · intro pat newName hnodup hmem hrender
    have hfind : selectedTemplate.Rename.find? (fun kv => name == kv.1) = some (name, pat) := by
      rw [List.find?_eq_some]
      refine ⟨by simp, ?_⟩
      obtain ⟨pre, post, hsplit⟩ := List.append_of_mem hmem
      refine ⟨pre, post, hsplit, ?_⟩
      intro kv hkv
      rw [hsplit, List.map_append, List.map_cons, List.nodup_append] at hnodup
      have hdisj := hnodup.2.2
      have hk : kv.1 ≠ name := by
        intro heq
        exact hdisj (List.mem_map_of_mem Prod.fst hkv) (by simp [heq])
      simpa using fun heq : name = kv.1 => hk heq.symm
    simp [applyRename, hfind, hrender]
  · intro path mode text out st destPath hname hren hrender
    have hn : (name == "template.json") = false := by simpa using hname
    simp only [createWalk, hn, Bool.false_eq_true, if_false, hren, hrender]
  · intro path mode entries st destPath hname hren
    have hn : (name == "template.json") = false := by simpa using hname
    simp only [createWalk, hn, Bool.false_eq_true, if_false, hren]
  · intro destComps newName hdest hne hall
    subst hdest
    have hj := Join_names_relPath destComps rel hne
      (fun c hc => hall c (by simp [hc])) (fun c hc => hall c (by simp [hc]))
    refine ⟨hj, fun hn => ?_⟩
    rw [hj]
    exact Join_Dir_names (destComps ++ rel) newName (by simp [hne]) hall hn

/-- Witness of C19: `README.md` keeps its path although the keys `README`,
`.md`, `EADME` and `*.md` are a prefix, a suffix, a substring and a matching
glob pattern of its name, and `main.go` has its last component replaced by the
rendering `app.go` of its rule. -/
theorem C19_destination_path_witness :
    applyRename sampleRenameTemplate.Rename [("ProjectName", "app"), ("AuthorName", "Ada")]
        "README.md" (filepath.Join "proj" (relPath ["docs", "README.md"]))
      = .ok "proj/docs/README.md" ∧
    applyRename sampleRenameTemplate.Rename [("ProjectName", "app"), ("AuthorName", "Ada")]
        "main.go" (filepath.Join "proj" (relPath ["cmd", "main.go"]))
      = .ok "proj/cmd/app.go" ∧
    filepath.Join "proj" (relPath ["cmd", "main.go"]) = "proj/cmd/main.go" ∧
    filepath.Join (filepath.Dir (filepath.Join "proj" (relPath ["cmd", "main.go"]))) "app.go"
      = "proj/cmd/app.go" :=
  ⟨((C19_destination_path sampleRenameTemplate [("ProjectName", "app"), ("AuthorName", "Ada")]
      "proj" ["docs", "README.md"] "README.md").1 (by decide)).trans (by rfl),
   ((C19_destination_path sampleRenameTemplate [("ProjectName", "app"), ("AuthorName", "Ada")]
      "proj" ["cmd", "main.go"] "main.go").2.1 "{{.ProjectName}}.go" "app.go"
      (by decide) (by decide) rfl).trans (by rfl),
   ((C19_destination_path sampleRenameTemplate [("ProjectName", "app"), ("AuthorName", "Ada")]
      "proj" ["cmd", "main.go"] "main.go").2.2.2.2 ["proj"] "app.go" rfl (by decide)
      (by decide)).1.trans (by decide),
   (((C19_destination_path sampleRenameTemplate [("ProjectName", "app"), ("AuthorName", "Ada")]
      "proj" ["cmd", "main.go"] "main.go").2.2.2.2 ["proj"] "app.go" rfl (by decide)
      (by decide)).2 (by decide)).trans (by decide)⟩

/-! ## Commit labels: the theorems -/

/-- Claim C21, the code at the failing input: for the commit `abc123` of the
documented example, six bytes long, the list command evaluates
`(*tpl.Commit)[:7]` and panics, for a custom template as for a registry
template, while the config show command, which bounds the slice by the length,
yields `abc123`. -/
theorem C21_short_commit_label :
    listCommitInfo (some "abc123") = .panic 7 6 ∧
    configShowCommitInfo (some "abc123") = .ok (goBytes "abc123") ∧
    listCustomLabels (GetCustomTemplates
      { sampleConfig with
        CustomTemplates := [{ sampleCustom "svc" with Commit := some "abc123" }] })
      = .error (7, 6) ∧
    listCommitInfo (registryTemplateToTemplate sampleDocument sampleEntryOwn).Commit
      = .panic 7 6 := by
  refine ⟨by decide, by decide, by rfl, by decide⟩

/-- Where the two commands agree: an unpinned template is labelled `latest` by
both, and for a commit of at least seven bytes both yield its first seven
bytes; the config show command yields the first `min 7 len` bytes for every
commit. -/
theorem commit_label_agree (commit : String) :
    listCommitInfo none = .ok (goBytes "latest") ∧
    configShowCommitInfo none = .ok (goBytes "latest") ∧
    configShowCommitInfo (some commit)
      = .ok ((goBytes commit).take (min 7 (goBytes commit).length)) ∧
    (7 ≤ (goBytes commit).length →
      listCommitInfo (some commit) = .ok ((goBytes commit).take 7) ∧
      configShowCommitInfo (some commit) = .ok ((goBytes commit).take 7)) ∧
    ((goBytes commit).length < 7 →
      listCommitInfo (some commit) = .panic 7 (goBytes commit).length) := by
  refine ⟨rfl, rfl, ?_, ?_, ?_⟩
  · simp [configShowCommitInfo, sliceTo]
  · intro h
    simp [listCommitInfo, configShowCommitInfo, sliceTo, h]
  · intro h
    have : ¬ 7 ≤ (goBytes commit).length := by omega
    simp [listCommitInfo, sliceTo, this]

/-! ## Import of a whole registry: the theorems -/

theorem importedEntries_sublist (seen : List String) (rts : List RegistryTemplate) :
    List.Sublist (importedEntries seen rts) rts := by
  induction rts generalizing seen with
  | nil => simp [importedEntries]
  | cons rt rest ih =>
    unfold importedEntries
    split
    · exact (ih seen).cons rt
    · exact (ih _).cons₂ rt

theorem importedEntries_not_seen (seen : List String) (rts : List RegistryTemplate) :
    ∀ rt ∈ importedEntries seen rts, rt.ID ∉ seen := by
  induction rts generalizing seen with
  | nil => simp [importedEntries]
  | cons r rest ih =>
    intro rt hrt
    unfold importedEntries at hrt
    split at hrt
    · exact ih seen rt hrt
    · next hns =>
      rcases List.mem_cons.mp hrt with rfl | hrt
      · exact hns
      · intro hmem
        exact ih _ rt hrt (List.mem_append_left _ hmem)

theorem importedEntries_nodup (seen : List String) (rts : List RegistryTemplate) :
    ((importedEntries seen rts).map (fun rt => rt.ID)).Nodup := by
  induction rts generalizing seen with
  | nil => simp [importedEntries]
  | cons r rest ih =>
    unfold importedEntries
    split
    · exact ih seen
    · rw [List.map_cons, List.nodup_cons]
      refine ⟨?_, ih _⟩
      intro hmem
      obtain ⟨x, hx, hxid⟩ := List.mem_map.mp hmem
      exact importedEntries_not_seen _ rest x hx (by simp [hxid])

theorem importedEntries_covers (seen : List String) (rts : List RegistryTemplate) :
    ∀ rt ∈ rts, rt.ID ∈ seen ∨ rt.ID ∈ (importedEntries seen rts).map (fun r => r.ID) := by
  induction rts generalizing seen with
  | nil => simp
  | cons r rest ih =>
    intro rt hrt
    unfold importedEntries
    split
    · next hs =>
      rcases List.mem_cons.mp hrt with rfl | hrt
      · exact Or.inl hs
      · exact ih seen rt hrt
    · rcases List.mem_cons.mp hrt with rfl | hrt
      · exact Or.inr (by simp)
      · rcases ih (seen ++ [r.ID]) rt hrt with h | h
        · rcases List.mem_append.mp h with h1 | h1
          · exact Or.inl h1
          · have : rt.ID = r.ID := by simpa using h1
            exact Or.inr (by simp [this])
        · exact Or.inr (by simp [h])

theorem importedEntries_first (seen : List String) (rts : List RegistryTemplate) :
    ∀ rt ∈ importedEntries seen rts, rts.find? (fun r => r.ID == rt.ID) = some rt := by
  induction rts generalizing seen with
  | nil => simp [importedEntries]
  | cons r rest ih =>
    intro rt hrt
    unfold importedEntries at hrt
    split at hrt
    · next hs =>
      have hne : r.ID ≠ rt.ID := by
        intro heq
        exact importedEntries_not_seen seen rest rt hrt (heq ▸ hs)
      simp [List.find?_cons, hne, ih seen rt hrt]
    · rcases List.mem_cons.mp hrt with rfl | hrt
      · simp [List.find?_cons]
      · have hne : r.ID ≠ rt.ID := by
          intro heq
          exact importedEntries_not_seen _ rest rt hrt (by simp [heq])
        simp [List.find?_cons, hne, ih _ rt hrt]

/-- Claim C22: import with `--all` from a fetched registry goes through all
its entries. The custom templates afterwards are those before, unchanged and
in place, followed by the conversions of the entries `new`, which are entries
of the registry in registry order, one per ID, none with an ID that a custom
template had before, each the first entry of the registry with its ID; every
ID of the registry is then the ID of a custom template, and every new custom
template has Private equal to the auth flag. An entry whose ID is taken is
passed over and the loop goes on. The configuration is saved when at least one
entry was added. -/
theorem C22_import_all (FetchRegistry : Fetcher) (SaveConfig : Config → GoError)
    (cfg : Config) (registryURL templateID : String) (requiresAuth : Bool)
    (registry : TemplateRegistry)
    (hfetch : FetchRegistry 0 registryURL cfg.GithubToken requiresAuth = .ok registry) :
    ∃ new : List RegistryTemplate,
      importCmd FetchRegistry SaveConfig cfg registryURL templateID true requiresAuth =
        (if new.length > 0 then
          match SaveConfig { cfg with
              CustomTemplates := (cfg.CustomTemplates ++
                new.map (registryTemplateToCustom registry requiresAuth)) } with
          | some err => .fatal ("Error saving configuration: " ++ err)
          | none =>
            .done { cfg with
              CustomTemplates := (cfg.CustomTemplates ++
                new.map (registryTemplateToCustom registry requiresAuth)) } new.length true
        else
          .done { cfg with
            CustomTemplates := (cfg.CustomTemplates ++
              new.map (registryTemplateToCustom registry requiresAuth)) } new.length false) ∧
      List.Sublist new registry.Templates ∧
      (new.map (fun rt => rt.ID)).Nodup ∧
      (∀ rt ∈ new, ∀ t ∈ cfg.CustomTemplates, t.ID ≠ rt.ID) ∧
      (∀ rt ∈ new, registry.Templates.find? (fun r => r.ID == rt.ID) = some rt) ∧
      (∀ rt ∈ registry.Templates,
        ∃ ct ∈ cfg.CustomTemplates ++ new.map (registryTemplateToCustom registry requiresAuth),
          ct.ID = rt.ID) ∧
      (∀ ct ∈ new.map (registryTemplateToCustom registry requiresAuth),
        ct.Private = requiresAuth) := by
  refine ⟨importedEntries (cfg.CustomTemplates.map (fun t => t.ID)) registry.Templates,
    ?_, importedEntries_sublist _ _, importedEntries_nodup _ _, ?_,
    importedEntries_first _ _, ?_, ?_⟩
  · simp only [importCmd, hfetch, selectTemplatesToImport, importLoop_eq, Bool.not_true,
      Bool.false_and, Bool.false_eq_true, if_false, if_true, Nat.zero_add]
  · intro rt hrt t ht heq
    exact importedEntries_not_seen _ _ rt hrt (List.mem_map.mpr ⟨t, ht, heq⟩)
  · intro rt hrt
    rcases importedEntries_covers (cfg.CustomTemplates.map (fun t => t.ID))
      registry.Templates rt hrt with h | h
    · obtain ⟨t, ht, hid⟩ := List.mem_map.mp h
      exact ⟨t, List.mem_append_left _ ht, hid⟩
    · obtain ⟨r, hr, hid⟩ := List.mem_map.mp h
      exact ⟨registryTemplateToCustom registry requiresAuth r,
        List.mem_append_right _ (List.mem_map_of_mem _ hr), hid⟩
  · intro ct hct
    obtain ⟨r, _, rfl⟩ := List.mem_map.mp hct
    rfl

/-- Witness of C22: the configuration has the custom template `web`, and the
registry offers `go-api`, `web` and `go-api` again. -/
theorem C22_import_all_witness :
    ∃ new : List RegistryTemplate,
      importCmd repeatingFetcher (fun _ => none) sampleInitConfig "https://a.example/r.json" ""
          true true =
        (if new.length > 0 then
          match (fun _ => none : Config → GoError) { sampleInitConfig with
              CustomTemplates := (sampleInitConfig.CustomTemplates ++
                new.map (registryTemplateToCustom repeatingDocument true)) } with
          | some err => .fatal ("Error saving configuration: " ++ err)
          | none =>
            .done { sampleInitConfig with
              CustomTemplates := (sampleInitConfig.CustomTemplates ++
                new.map (registryTemplateToCustom repeatingDocument true)) } new.length true
        else
          .done { sampleInitConfig with
            CustomTemplates := (sampleInitConfig.CustomTemplates ++
              new.map (registryTemplateToCustom repeatingDocument true)) } new.length false) ∧
      List.Sublist new repeatingDocument.Templates ∧
      (new.map (fun rt => rt.ID)).Nodup ∧
      (∀ rt ∈ new, ∀ t ∈ sampleInitConfig.CustomTemplates, t.ID ≠ rt.ID) ∧
      (∀ rt ∈ new, repeatingDocument.Templates.find? (fun r => r.ID == rt.ID) = some rt) ∧
      (∀ rt ∈ repeatingDocument.Templates,
        ∃ ct ∈ sampleInitConfig.CustomTemplates ++
            new.map (registryTemplateToCustom repeatingDocument true),
          ct.ID = rt.ID) ∧
      (∀ ct ∈ new.map (registryTemplateToCustom repeatingDocument true),
        ct.Private = true) :=
  C22_import_all repeatingFetcher (fun _ => none) sampleInitConfig
    "https://a.example/r.json" "" true repeatingDocument rfl

/-- The run of the witness of C22, evaluated: of the three entries only the
first `go-api` is added, after the custom template `web` that was there. -/
theorem import_all_example :
    importCmd repeatingFetcher (fun _ => none) sampleInitConfig "https://a.example/r.json" ""
        true true =
      .done { sampleInitConfig with
        CustomTemplates := [sampleCustom "web",
          registryTemplateToCustom repeatingDocument true sampleEntryDefault] } 1 true := by
  decide

end Boilerplates
